import Mathlib

/-!
Verification development for the inactivity-analysis engine of
`ClientesSemCompraSigma.py`.

The Python file builds SQL queries over four relations (`vendas`,
`mercadorias`, `clientes`, `vendedores`) and post-processes the results with
pandas.  This file embeds those queries and the pandas post-processing as
executable Lean functions over explicit list-valued relations, and proves the
specified properties about them.

Modelling conventions:
* a SQL relation is a `List` of records; `JOIN` against a dimension table
  keyed by its id (`mercadorias`, `clientes`, `vendedores`) is modelled as a
  semijoin / lookup, i.e. ids are treated as keys of the dimension tables;
* `CURRENT_DATE` is an explicit `today : Date` parameter;
* locale-formatted monetary strings (`valor_liq`, and - modelled from the
  spec, see `situacaoOf` - `limite_aberto`) are parsed by an executable
  embedding of the `REPLACE`-chain plus `::NUMERIC` cast used by the source;
  a failed cast makes the whole query fail, which the Python wrapper catches
  by returning an empty result (`except Exception: return pd.DataFrame()`);
* `ROW_NUMBER() OVER (PARTITION BY cliente ORDER BY data_emissao DESC)`
  ties are broken deterministically (first matching row of the scan), one
  valid instance of the unspecified SQL tie-break;
* pandas `sort_values(..., ascending=False)` computes an ascending argsort
  of the column and reverses the whole indexer
  (`pandas.core.sorting.nargsort`); for small inputs numpy's default
  quicksort degenerates to a stable insertion sort, so the net effect is a
  descending order whose tie groups appear in reverse of their index order
  (for larger inputs the tie order is implementation-defined; the model
  fixes the small-input behaviour).
-/

/-- Calendar date (`data_emissao`, `CURRENT_DATE`, `data_desligamento`). -/
structure Date where
  year : Nat
  month : Nat
  day : Nat
deriving DecidableEq, Repr

/-- Strict lexicographic order on dates. -/
def Date.ltB (a b : Date) : Bool :=
  decide (a.year < b.year ∨ (a.year = b.year ∧
    (a.month < b.month ∨ (a.month = b.month ∧ a.day < b.day))))

/-- Lexicographic order on dates (used for the `data_emissao >= ...` window). -/
def Date.leB (a b : Date) : Bool :=
  decide (a = b) || Date.ltB a b

/-- `DATE_TRUNC('month', d)` rendered as a single grouping/sorting key.
With the database invariant `1 ≤ month ≤ 12` this is injective on
calendar months and ordered like them. -/
def Date.mesRef (d : Date) : Nat := d.year * 100 + d.month

/-- A row of the `vendas` relation. -/
structure Sale where
  cliente : Nat
  vendedor : String
  mercadoria : Nat
  data_emissao : Date
  tipo : String
  valor_liq : String
deriving DecidableEq, Repr

/-- A row of the `mercadorias` relation (merchandise -> supplier mapping). -/
structure Mercadoria where
  mercadoria : Nat
  fornecedor : Nat
  nome_fornecedor : String
deriving DecidableEq, Repr

/-- A row of the `clientes` relation.  `limite_aberto` is kept as the stored
string; see `situacaoOf` for how the numeric comparison is modelled. -/
structure Cliente where
  cliente : Nat
  raz_social : String
  cidade : Option String
  situacao : String
  antecipado : String
  limite_aberto : String
deriving DecidableEq, Repr

/-- A row of the `vendedores` relation. -/
structure Vendedor where
  vendedor : String
  nome : String
  data_desligamento : Option Date
deriving DecidableEq, Repr

/-- The database snapshot scanned by one request. -/
structure DB where
  vendas : List Sale
  mercadorias : List Mercadoria
  clientes : List Cliente
  vendedores : List Vendedor
deriving DecidableEq, Repr

/-! ### Monetary-string parsing

`REPLACE(REPLACE(REPLACE(x, 'R$ ', ''), '.', ''), ',', '.')::NUMERIC`. -/

/-- `REPLACE(s, 'R$ ', '')`: drop every (non-overlapping, left-to-right)
occurrence of the three-character substring. -/
def removeRS : List Char → List Char
  | [] => []
  | 'R' :: '$' :: ' ' :: rest => removeRS rest
  | c :: cs => c :: removeRS cs

/-- `REPLACE(s, '.', '')`. -/
def remDots (cs : List Char) : List Char := cs.filter (fun c => !(c == '.'))

/-- `REPLACE(s, ',', '.')`. -/
def commaToDot (cs : List Char) : List Char :=
  cs.map (fun c => if c == ',' then '.' else c)

/-- Value of a digit string (most significant first). -/
def digitsToNat (cs : List Char) : Nat :=
  cs.foldl (fun n c => n * 10 + (c.toNat - 48)) 0

/-- An exact decimal number `num / 10 ^ exp`, the value class of the
Postgres `NUMERIC` type as this report uses it (addition, negation and
sign tests only).  Kept unnormalised; `toRat` gives its value. -/
structure Dec where
  num : Int
  exp : Nat
deriving DecidableEq, Repr

/-- The rational value of a decimal. -/
def Dec.toRat (a : Dec) : Rat := (a.num : Rat) / (10 : Rat) ^ a.exp

/-- Exact decimal addition. -/
def Dec.add (a b : Dec) : Dec :=
  ⟨a.num * 10 ^ b.exp + b.num * 10 ^ a.exp, a.exp + b.exp⟩

/-- Exact decimal negation. -/
def Dec.neg (a : Dec) : Dec := ⟨-a.num, a.exp⟩

/-- The decimal zero. -/
def Dec.zero : Dec := ⟨0, 0⟩

/-- `= 0` on decimals: the denominator is positive, so the sign is the
numerator's. -/
def Dec.isZero (a : Dec) : Bool := a.num == 0

/-- `> 0` on decimals. -/
def Dec.isPos (a : Dec) : Bool := decide (0 < a.num)

/-- Unsigned part of the Postgres `::NUMERIC` cast of a plain decimal string:
digits, at most one decimal point, at least one digit in total. -/
def pgNumCore (cs : List Char) : Option Dec :=
  let ip := cs.takeWhile (fun c => !(c == '.'))
  let rest := cs.dropWhile (fun c => !(c == '.'))
  let fp : Option (List Char) :=
    match rest with
    | [] => some []
    | _ :: r => if r.contains '.' then none else some r
  match fp with
  | none => none
  | some f =>
      if ip.all Char.isDigit && f.all Char.isDigit && (!ip.isEmpty || !f.isEmpty) then
        some ⟨(digitsToNat ip * 10 ^ f.length + digitsToNat f : Nat), f.length⟩
      else none

/-- The Postgres `::NUMERIC` cast of a string (optional sign, then an
unsigned decimal; scientific notation and surrounding blanks are not part
of the data this report stores and are not modelled). `none` is the cast
error, which aborts the surrounding query. -/
def pgNumeric (s : String) : Option Dec :=
  match s.toList with
  | '-' :: r => (pgNumCore r).map Dec.neg
  | '+' :: r => pgNumCore r
  | cs => pgNumCore cs

/-- The full `REPLACE`-chain of the source followed by the numeric cast:
parse of a locale-formatted monetary string such as `R$ 1.234,56`. -/
def parseMonetary (s : String) : Option Dec :=
  pgNumeric (String.mk (commaToDot (remDots (removeRS s.toList))))

/-! ### Filter construction

The Python code appends a `... IN (...)` clause only when the selection does
not contain the dimension sentinel (`'Todos'` / `'Todas'`) and is non-empty:

    if 'Todos' not in vendedores_sel and vendedores_sel:
        filtro = f"AND v.vendedor IN (...)"
-/

/-- Predicate a selection list imposes on a dimension value. -/
def passSel (sent : String) (sel : List String) (x : String) : Bool :=
  if sent ∈ sel ∨ sel = [] then true else sel.contains x

/-- Predicate of the city clause `AND c.cidade IN (...)` on a customer row;
a SQL `NULL` city never satisfies an active `IN` clause. -/
def cidPass (sel : List String) (c : Cliente) : Bool :=
  if "Todas" ∈ sel ∨ sel = [] then true
  else
    match c.cidade with
    | some city => sel.contains city
    | none => false

/-! ### `get_clientes_sem_compra` -/

/-- The scan of the `ultimas_vendas` CTE: sales joined to `mercadorias`,
excluding the house-account salesperson `'2'` and applying the salesperson
and supplier selections.  Note: the CTE has no condition on `v.tipo`. -/
def ultimas_vendas_scan (db : DB) (fornecedores_sel vendedores_sel : List String) :
    List Sale :=
  db.vendas.filter (fun s =>
    !(s.vendedor == "2") && passSel "Todos" vendedores_sel s.vendedor &&
      db.mercadorias.any (fun m =>
        m.mercadoria == s.mercadoria &&
          passSel "Todos" fornecedores_sel m.nome_fornecedor))

/-- Deterministic pick of a maximal-`data_emissao` sale (the `rn = 1` row of
`ROW_NUMBER() ... ORDER BY data_emissao DESC`); ties go to the earlier row
of the scan. -/
def maxByData : List Sale → Option Sale
  | [] => none
  | s :: rest =>
      match maxByData rest with
      | none => some s
      | some t => if Date.ltB s.data_emissao t.data_emissao then some t else some s

/-- `(EXTRACT(YEAR FROM CURRENT_DATE) - EXTRACT(YEAR FROM d)) * 12 +
(EXTRACT(MONTH FROM CURRENT_DATE) - EXTRACT(MONTH FROM d))`. -/
def meses_sem_compra_calc (today last : Date) : Int :=
  ((today.year : Int) - (last.year : Int)) * 12 +
    ((today.month : Int) - (last.month : Int))

/-! ### Stable insertion sort (model of `ORDER BY` / pandas `sort_values`) -/

/-- Insert `x` before the first element `y` with `le x y`; with a reflexive
`le` this keeps an earlier `x` in front of its ties (stability). -/
def insertLe {γ : Type} (le : γ → γ → Bool) (x : γ) : List γ → List γ
  | [] => [x]
  | y :: ys => if le x y then x :: y :: ys else y :: insertLe le x ys

/-- Stable insertion sort by the Boolean relation `le`. -/
def insSort {γ : Type} (le : γ → γ → Bool) : List γ → List γ
  | [] => []
  | x :: xs => insertLe le x (insSort le xs)

/-! ### `get_clientes_sem_compra` (continued) -/

/-- A row of the inactivity report (one `SELECT` row of the main query). -/
structure ReportRow where
  cliente : Nat
  raz_social : String
  cidade : Option String
  ultimo_vendedor_cod : String
  nome_vendedor : Option String
  data_desligamento : Option Date
  situacao : String
  limite : String
  data_ultima_compra : Date
  meses_sem_compra : Int
deriving DecidableEq, Repr

/-- The `rn = 1` row of `ultimas_vendas` for one customer id. -/
def lastPurchase (db : DB) (fornecedores_sel vendedores_sel : List String)
    (cid : Nat) : Option Sale :=
  maxByData ((ultimas_vendas_scan db fornecedores_sel vendedores_sel).filter
    (fun s => s.cliente == cid))

/-- The `CASE` expression computing the `situacao` column.  SQL `CASE`
evaluates its branches in order, so the numeric use of `limite_aberto` is
reached only when the first two tests fail.

Modelled from the spec: the `clientes` table schema is not part of the
repository; per the spec's data model `limite_aberto` is stored as a
locale-formatted monetary string, so the source's comparison
`c.limite_aberto = 0` is modelled as the numeric cast of the stored string
compared with `0`, and a cast failure is a query error. -/
def situacaoOf (c : Cliente) : Except String String :=
  if c.situacao = "S" then .ok "Suspenso"
  else if c.antecipado = "A28" then .ok "Antecipado"
  else
    match pgNumeric c.limite_aberto with
    | some v => .ok (if v.isZero then "Suspenso" else "Liberado")
    | none => .error ("invalid input syntax for type numeric: " ++ c.limite_aberto)

/-- The projected row for customer `c` whose last purchase is the sale `s`
(`LEFT JOIN vendedores` on the salesperson code of that sale). -/
def mkRow (db : DB) (today : Date) (c : Cliente) (s : Sale) (st : String) :
    ReportRow :=
  let ven := db.vendedores.find? (fun v => v.vendedor == s.vendedor)
  { cliente := c.cliente
    raz_social := c.raz_social
    cidade := c.cidade
    ultimo_vendedor_cod := s.vendedor
    nome_vendedor := ven.map (·.nome)
    data_desligamento := ven.bind (·.data_desligamento)
    situacao := st
    limite := c.limite_aberto
    data_ultima_compra := s.data_emissao
    meses_sem_compra := meses_sem_compra_calc today s.data_emissao }

/-- Rows of the main query, scanning the `clientes` relation: a customer
contributes a row when it has a qualifying last purchase, meets the
months threshold and passes the city clause.  A `situacao` cast error
aborts the whole query. -/
def rowsFor (db : DB) (today : Date) (meses : Int)
    (fornecedores_sel cidades_sel vendedores_sel : List String) :
    List Cliente → Except String (List ReportRow)
  | [] => .ok []
  | c :: rest =>
      match lastPurchase db fornecedores_sel vendedores_sel c.cliente with
      | none => rowsFor db today meses fornecedores_sel cidades_sel vendedores_sel rest
      | some s =>
          if decide (meses ≤ meses_sem_compra_calc today s.data_emissao) &&
              cidPass cidades_sel c then
            match situacaoOf c with
            | .error e => .error e
            | .ok st =>
                match rowsFor db today meses fornecedores_sel cidades_sel vendedores_sel rest with
                | .error e => .error e
                | .ok rs => .ok (mkRow db today c s st :: rs)
          else rowsFor db today meses fornecedores_sel cidades_sel vendedores_sel rest

/-- `get_clientes_sem_compra`: the full query (`ORDER BY meses_sem_compra
DESC`), with the Python wrapper's `except Exception: return pd.DataFrame()`
catch rendered as an empty row list. -/
def get_clientes_sem_compra (db : DB) (today : Date) (meses : Int)
    (fornecedores_sel cidades_sel vendedores_sel : List String) :
    List ReportRow :=
  match rowsFor db today meses fornecedores_sel cidades_sel vendedores_sel db.clientes with
  | .ok rs => insSort (fun a b => decide (b.meses_sem_compra ≤ a.meses_sem_compra)) rs
  | .error _ => []

/-! ### `get_evolucao_clientes` -/

/-- First day of the year before `today`'s:
`DATE_TRUNC('year', CURRENT_DATE - INTERVAL '1 year')`. -/
def windowStart (today : Date) : Date := ⟨today.year - 1, 1, 1⟩

/-- The scan of the `vendas_por_cliente` CTE: sales within the window,
joined to `mercadorias` and `clientes`, excluding salesperson `'2'`,
with all three selsection clauses applied (the city clause is inside
this CTE, unlike in `get_clientes_sem_compra`). -/
def evoScan (db : DB) (today : Date)
    (fornecedores_sel cidades_sel vendedores_sel : List String) : List Sale :=
  db.vendas.filter (fun s =>
    Date.leB (windowStart today) s.data_emissao &&
      !(s.vendedor == "2") && passSel "Todos" vendedores_sel s.vendedor &&
      db.mercadorias.any (fun m =>
        m.mercadoria == s.mercadoria &&
          passSel "Todos" fornecedores_sel m.nome_fornecedor) &&
      db.clientes.any (fun c => c.cliente == s.cliente && cidPass cidades_sel c))

/-- One summand of `SUM(CASE WHEN v.tipo = 'V' THEN +valor WHEN v.tipo = 'D'
THEN -valor ELSE 0 END)`; the monetary cast only happens in the first two
branches. -/
def caseValue (s : Sale) : Except String Dec :=
  if s.tipo = "V" then
    match parseMonetary s.valor_liq with
    | some q => .ok q
    | none => .error ("invalid input syntax for type numeric: " ++ s.valor_liq)
  else if s.tipo = "D" then
    match parseMonetary s.valor_liq with
    | some q => .ok q.neg
    | none => .error ("invalid input syntax for type numeric: " ++ s.valor_liq)
  else .ok Dec.zero

/-- `total_venda` of one `(mes_ref, cliente)` group. -/
def totalVenda : List Sale → Except String Dec
  | [] => .ok Dec.zero
  | s :: rest =>
      match caseValue s with
      | .error e => .error e
      | .ok v =>
          match totalVenda rest with
          | .error e => .error e
          | .ok t => .ok (v.add t)

/-- `COUNT(DISTINCT CASE WHEN total_venda > 0 THEN cliente END)` for one
month: among the distinct customer ids `cl` of the month's sales `ms`,
count those whose `total_venda` is strictly positive. -/
def attendedCount (ms : List Sale) : List Nat → Except String Nat
  | [] => .ok 0
  | c :: cs =>
      match totalVenda (ms.filter (fun s => s.cliente == c)) with
      | .error e => .error e
      | .ok t =>
          match attendedCount ms cs with
          | .error e => .error e
          | .ok n => .ok (if t.isPos then n + 1 else n)

/-- One output row of the evolution query for the month key `mk`:
`(mes_ref, qtd_clientes_total, qtd_clientes_com_venda)`. -/
def evoRow (qs : List Sale) (mk : Nat) : Except String (Nat × Nat × Nat) :=
  match attendedCount (qs.filter (fun s => s.data_emissao.mesRef == mk))
      (((qs.filter (fun s => s.data_emissao.mesRef == mk)).map (·.cliente)).dedup) with
  | .error e => .error e
  | .ok att =>
      .ok (mk, (((qs.filter (fun s => s.data_emissao.mesRef == mk)).map
        (·.cliente)).dedup).length, att)

/-- The distinct month keys of the scan, `ORDER BY mes_ref` ascending. -/
def evoMonths (qs : List Sale) : List Nat :=
  insSort (fun a b => decide (a ≤ b)) ((qs.map (fun s => s.data_emissao.mesRef)).dedup)

/-- Error-propagating map over the month keys. -/
def mapE {α β : Type} (f : α → Except String β) : List α → Except String (List β)
  | [] => .ok []
  | x :: xs =>
      match f x with
      | .error e => .error e
      | .ok y =>
          match mapE f xs with
          | .error e => .error e
          | .ok ys => .ok (y :: ys)

/-- The evolution query before the Python error catch. -/
def getEvolucaoE (db : DB) (today : Date)
    (fornecedores_sel cidades_sel vendedores_sel : List String) :
    Except String (List (Nat × Nat × Nat)) :=
  mapE (evoRow (evoScan db today fornecedores_sel cidades_sel vendedores_sel))
    (evoMonths (evoScan db today fornecedores_sel cidades_sel vendedores_sel))

/-- `get_evolucao_clientes`, with the wrapper's error catch rendered as an
empty result. -/
def get_evolucao_clientes (db : DB) (today : Date)
    (fornecedores_sel cidades_sel vendedores_sel : List String) :
    List (Nat × Nat × Nat) :=
  match getEvolucaoE db today fornecedores_sel cidades_sel vendedores_sel with
  | .ok out => out
  | .error _ => []

/-! ### The pivot tables of `main`

`main` builds three pandas pivots from the report:
bucket x status, salesperson x bucket, city x bucket; each gets a `Total`
column (row-wise sum) and a `Total`/`Total Geral` row (column-wise sums),
and the last two are reordered by descending `Total` with the total row
re-appended last. -/

/-- Code-point lexicographic order on strings (the pandas index order),
written over character lists so that concrete comparisons compute. -/
def charsLe : List Char → List Char → Bool
  | [], _ => true
  | _ :: _, [] => false
  | c :: cs, d :: ds => if c = d then charsLe cs ds else decide (c < d)

/-- `charsLe` on strings. -/
def strLeB (a b : String) : Bool := charsLe a.toList b.toList

/-- Index label of a pivot row: a key of the row dimension, or the
synthetic total row (`'Total'` / `'Total Geral'`). -/
inductive RowLabel (α : Type) where
  | key : α → RowLabel α
  | total : RowLabel α
deriving DecidableEq, Repr

/-- One rendered pivot row. -/
structure PivotRow (α : Type) where
  label : RowLabel α
  cells : List Nat
  total : Nat
deriving DecidableEq, Repr

/-- A rendered pivot table. -/
structure PivotTable (α β : Type) where
  colKeys : List β
  rows : List (PivotRow α)
deriving DecidableEq, Repr

/-- `groupby(...).size()` cell: number of source rows with the given row and
column key (pandas `groupby` drops rows with a null key; `pivot(...)`
`.fillna(0)` makes absent combinations 0). -/
def pivotCell {ρ α β : Type} [DecidableEq α] [DecidableEq β]
    (src : List ρ) (rk : ρ → Option α) (ck : ρ → Option β) (a : α) (b : β) : Nat :=
  src.countP (fun r => decide (rk r = some a) && decide (ck r = some b))

/-- The source rows that survive `groupby` on both keys. -/
def keptRows {ρ α β : Type} (src : List ρ) (rk : ρ → Option α) (ck : ρ → Option β) :
    List ρ :=
  src.filter (fun r => (rk r).isSome && (ck r).isSome)

/-- Build a pivot table: row index = distinct row keys (in pandas index
order, i.e. sorted by `leα`), columns = distinct column keys, cells =
group sizes, plus the `Total` column and the total row. -/
def buildPivot {ρ α β : Type} [DecidableEq α] [DecidableEq β]
    (src : List ρ) (rk : ρ → Option α) (ck : ρ → Option β) (leα : α → α → Bool) :
    PivotTable α β :=
  let kept := keptRows src rk ck
  let cks := (kept.filterMap ck).dedup
  let rks := insSort leα ((kept.filterMap rk).dedup)
  let dataRows := rks.map (fun a =>
    let cs := cks.map (pivotCell kept rk ck a)
    PivotRow.mk (RowLabel.key a) cs cs.sum)
  let totCells := cks.map (fun b => (rks.map (fun a => pivotCell kept rk ck a b)).sum)
  let grand := (rks.map (fun a => (cks.map (pivotCell kept rk ck a)).sum)).sum
  ⟨cks, dataRows ++ [PivotRow.mk RowLabel.total totCells grand]⟩

/-- Is this the synthetic total row? -/
def isTotalRow {α : Type} (r : PivotRow α) : Bool :=
  match r.label with
  | RowLabel.total => true
  | RowLabel.key _ => false

/-- The reorder step applied to the salesperson and city pivots:

    total_row = pivot.loc[['Total Geral']]
    other_rows = pivot.drop('Total Geral').sort_values('Total', ascending=False)
    pivot = pd.concat([other_rows, total_row])

`sort_values` with `ascending=False` argsorts the `Total` column ascending
and reverses the indexer (`pandas.core.sorting.nargsort`), so the data rows
end up in descending-total order with each tie group in reverse of its
index order; the ascending argsort is modelled as a stable insertion sort,
which is exact for the small inputs where numpy's default quicksort is a
single insertion-sort pass (beyond that the tie order is
implementation-defined). -/
def sortPivotDesc {α β : Type} (p : PivotTable α β) : PivotTable α β :=
  ⟨p.colKeys,
    (insSort (fun a b => decide (a.total ≤ b.total))
        (p.rows.filter (fun r => !isTotalRow r))).reverse ++
      p.rows.filter (fun r => isTotalRow r)⟩

/-- Row key of the bucket x status pivot: the `meses_sem_compra` bucket. -/
def mesesKey (r : ReportRow) : Option Int := some r.meses_sem_compra

/-- Column key of the bucket x status pivot: the `situacao` label. -/
def situacaoKey (r : ReportRow) : Option String := some r.situacao

/-- Row key of the salesperson pivot:

    df['status_vendedor'] = 'Vendedor Desligado' if data_desligamento else 'Vendedor Ativo'
    df['vendedor_completo'] = df['nome_vendedor'] + ' (' + df['status_vendedor'] + ')'

pandas string concatenation propagates the null `nome_vendedor` of a
customer whose last salesperson has no directory entry, and `groupby`
then drops those rows. -/
def vendedorCompleto (r : ReportRow) : Option String :=
  r.nome_vendedor.map (fun nm =>
    nm ++ " (" ++
      (if r.data_desligamento.isSome then "Vendedor Desligado" else "Vendedor Ativo")
      ++ ")")

/-- `pivot_situacao`: bucket x status, totals added, no reordering. -/
def pivot_situacao (rows : List ReportRow) : PivotTable Int String :=
  buildPivot rows mesesKey situacaoKey (fun a b => decide (a ≤ b))

/-- The salesperson pivot before the descending-total reorder. -/
def pivot_vendedor_base (rows : List ReportRow) : PivotTable String Int :=
  buildPivot rows vendedorCompleto mesesKey strLeB

/-- `pivot_vendedor`: salesperson x bucket, reordered by descending total. -/
def pivot_vendedor (rows : List ReportRow) : PivotTable String Int :=
  sortPivotDesc (pivot_vendedor_base rows)

/-- The city pivot before the descending-total reorder. -/
def pivot_cidade_base (rows : List ReportRow) : PivotTable String Int :=
  buildPivot rows (fun r => r.cidade) mesesKey strLeB

/-- `pivot_cidade`: city x bucket, reordered by descending total. -/
def pivot_cidade (rows : List ReportRow) : PivotTable String Int :=
  sortPivotDesc (pivot_cidade_base rows)

/-! ### The entry point -/

/-- `main` hard-codes the threshold: `meses_sem_compra = 0`. -/
def mainThreshold : Int := 0

/-- The report as generated by the `Gerar Relatório` button of `main`. -/
def mainReport (db : DB) (today : Date)
    (fornecedores_sel cidades_sel vendedores_sel : List String) : List ReportRow :=
  get_clientes_sem_compra db today mainThreshold fornecedores_sel cidades_sel vendedores_sel

/-! ### Auxiliary definitions used by the statements -/

/-- Rewrite every sale's transaction type (used to state that the
inactivity query ignores `tipo`). -/
def DB.setTipo (db : DB) (f : Sale → String) : DB :=
  { db with vendas := db.vendas.map (fun s => { s with tipo := f s }) }

/-- Spec-side sum of the parsed monetary values of a list of sales. -/
def sumParsed : List Sale → Except String Dec
  | [] => .ok Dec.zero
  | s :: rest =>
      match parseMonetary s.valor_liq with
      | none => .error ("invalid input syntax for type numeric: " ++ s.valor_liq)
      | some v =>
          match sumParsed rest with
          | .error e => .error e
          | .ok t => .ok (v.add t)

/-- Spec-side net value of a group of sales: sum of the parsed values of
the regular sales (`tipo = 'V'`) minus sum of the parsed values of the
returns (`tipo = 'D'`). -/
def netValueSpec (l : List Sale) : Except String Dec :=
  match sumParsed (l.filter (fun s => decide (s.tipo = "V"))) with
  | .error e => .error e
  | .ok sv =>
      match sumParsed (l.filter (fun s => decide (s.tipo = "D"))) with
      | .error e => .error e
      | .ok sd => .ok (sv.add sd.neg)

/-- The month group `ms` has a strictly positive spec-side net value for
customer `c`. -/
def netPos (ms : List Sale) (c : Nat) : Bool :=
  match netValueSpec (ms.filter (fun s => s.cliente == c)) with
  | .ok d => d.isPos
  | .error _ => false

/-- The pivot invariants of the spec, packaged for one pivot table with
expected grand total `n`: the rows split into data rows followed by the
total row, each data row's cells sum to its `Total`, the data-row totals
sum to the grand total, and the grand total is `n`. -/
def pivotInvariant {α β : Type} (p : PivotTable α β) (n : Nat) : Prop :=
  ∃ ds tr, p.rows = ds ++ [tr] ∧
    tr.label = RowLabel.total ∧
    (∀ r ∈ ds, r.label ≠ RowLabel.total) ∧
    (∀ r ∈ ds, r.cells.sum = r.total) ∧
    (ds.map (fun r => r.total)).sum = tr.total ∧
    tr.total = n

/-! ### Concrete scenario data -/

/-- A ledger whose only transaction is a return (`tipo = 'D'`). -/
def dbC1 : DB :=
  { vendas := [⟨1, "5", 7, ⟨2025, 4, 10⟩, "D", "R$ 10,00"⟩],
    mercadorias := [⟨7, 10263, "ACME"⟩],
    clientes := [⟨1, "Cliente Um", some "Uberlandia", "N", "", "100"⟩],
    vendedores := [⟨"5", "Joao", none⟩] }

/-- One customer with a zero open-credit-limit and one regular sale. -/
def dbC2 : DB :=
  { vendas := [⟨10, "5", 7, ⟨2025, 9, 1⟩, "V", "R$ 1,00"⟩],
    mercadorias := [⟨7, 1, "Forn"⟩],
    clientes := [⟨10, "Cliente Dez", some "Araguari", "N", "", "0"⟩],
    vendedores := [⟨"5", "Ana", none⟩] }

/-- Two customers over two months: in 2025-03 customer 1 nets +70 and
customer 2 nets -50; in 2025-04 customer 1 nets +10. -/
def dbC3 : DB :=
  { vendas := [
      ⟨1, "5", 7, ⟨2025, 3, 2⟩, "V", "R$ 100,00"⟩,
      ⟨1, "5", 7, ⟨2025, 3, 9⟩, "D", "R$ 30,00"⟩,
      ⟨2, "5", 7, ⟨2025, 3, 15⟩, "D", "R$ 50,00"⟩,
      ⟨1, "5", 7, ⟨2025, 4, 1⟩, "V", "R$ 10,00"⟩],
    mercadorias := [⟨7, 1, "Forn"⟩],
    clientes := [
      ⟨1, "Cliente Um", some "Araguari", "N", "", "10"⟩,
      ⟨2, "Cliente Dois", some "Araguari", "N", "", "10"⟩],
    vendedores := [⟨"5", "Ana", none⟩] }

/-- One customer whose last purchase was in 2025-06. -/
def dbC4 : DB :=
  { vendas := [⟨20, "5", 7, ⟨2025, 6, 5⟩, "V", "R$ 2,50"⟩],
    mercadorias := [⟨7, 1, "Forn"⟩],
    clientes := [⟨20, "Cliente Vinte", some "Araguari", "N", "", "5"⟩],
    vendedores := [⟨"5", "Ana", none⟩] }

/-- A one-row inactivity report. -/
def rowsC5 : List ReportRow :=
  [⟨1, "Cliente Um", some "Araguari", "5", some "Ana", none, "Liberado", "10",
    ⟨2025, 1, 2⟩, 9⟩]

/-- Customer 1 has an unparsable credit limit reached by the zero-limit
rule; customer 2 is unexceptional. -/
def dbC7 : DB :=
  { vendas := [
      ⟨1, "5", 7, ⟨2025, 4, 10⟩, "V", "R$ 10,00"⟩,
      ⟨2, "5", 7, ⟨2025, 5, 11⟩, "V", "R$ 20,00"⟩],
    mercadorias := [⟨7, 1, "Forn"⟩],
    clientes := [
      ⟨1, "Cliente Um", some "Araguari", "N", "X", "abc"⟩,
      ⟨2, "Cliente Dois", some "Araguari", "N", "", "50"⟩],
    vendedores := [⟨"5", "Ana", none⟩] }

/-- `dbC7` with customer 1's credit limit repaired. -/
def dbC7b : DB :=
  { dbC7 with clientes := [
      ⟨1, "Cliente Um", some "Araguari", "N", "X", "50"⟩,
      ⟨2, "Cliente Dois", some "Araguari", "N", "", "50"⟩] }

/-- A small ledger used for the neutral-selection scenario. -/
def dbC8 : DB :=
  { vendas := [⟨1, "5", 7, ⟨2025, 2, 3⟩, "V", "R$ 4,00"⟩],
    mercadorias := [⟨7, 1, "Forn"⟩],
    clientes := [⟨1, "Cliente Um", some "Araguari", "N", "", "5"⟩],
    vendedores := [⟨"5", "Ana", none⟩] }

/-- One customer in city `X`, reported under two city selections. -/
def dbC9 : DB :=
  { vendas := [⟨30, "5", 7, ⟨2025, 2, 3⟩, "V", "R$ 4,00"⟩],
    mercadorias := [⟨7, 1, "Forn"⟩],
    clientes := [⟨30, "Cliente Trinta", some "X", "N", "", "5"⟩],
    vendedores := [⟨"5", "Ana", none⟩] }

/-- One customer whose last purchase is in the current calendar month. -/
def dbC10 : DB :=
  { vendas := [⟨40, "5", 7, ⟨2025, 10, 2⟩, "V", "R$ 4,00"⟩],
    mercadorias := [⟨7, 1, "Forn"⟩],
    clientes := [⟨40, "Cliente Quarenta", some "Araguari", "N", "", "5"⟩],
    vendedores := [⟨"5", "Ana", none⟩] }

/-- One customer whose only sale is dated after the current month
(2025-11, against a current date in 2025-10). -/
def dbC10f : DB :=
  { vendas := [⟨50, "5", 7, ⟨2025, 11, 5⟩, "V", "R$ 4,00"⟩],
    mercadorias := [⟨7, 1, "Forn"⟩],
    clientes := [⟨50, "Cliente Cinquenta", some "Araguari", "N", "", "5"⟩],
    vendedores := [⟨"5", "Ana", none⟩] }

/-- The reference current date of the concrete scenarios. -/
def hoje : Date := ⟨2025, 10, 12⟩

/-- The report row produced for `dbC2`. -/
def rowC2 : ReportRow :=
  ⟨10, "Cliente Dez", some "Araguari", "5", some "Ana", none, "Suspenso", "0",
    ⟨2025, 9, 1⟩, 1⟩

/-- The report row produced for `dbC4`. -/
def rowC4 : ReportRow :=
  ⟨20, "Cliente Vinte", some "Araguari", "5", some "Ana", none, "Liberado", "5",
    ⟨2025, 6, 5⟩, 4⟩

/-- The report row produced for `dbC9`. -/
def rowC9 : ReportRow :=
  ⟨30, "Cliente Trinta", some "X", "5", some "Ana", none, "Liberado", "5",
    ⟨2025, 2, 3⟩, 8⟩

/-- The report row produced for `dbC10`. -/
def rowC10 : ReportRow :=
  ⟨40, "Cliente Quarenta", some "Araguari", "5", some "Ana", none, "Liberado", "5",
    ⟨2025, 10, 2⟩, 0⟩

/-! ### Lemmas about the insertion sort -/

theorem insertLe_perm {γ : Type} (le : γ → γ → Bool) (x : γ) (l : List γ) :
    (insertLe le x l).Perm (x :: l) := by
  induction l with
  | nil => simp [insertLe]
  | cons y ys ih =>
      by_cases h : le x y = true
      · simp [insertLe, h]
      · simp only [insertLe, h, if_false]
        exact (ih.cons y).trans (List.Perm.swap x y ys)

theorem insSort_perm {γ : Type} (le : γ → γ → Bool) (l : List γ) :
    (insSort le l).Perm l := by
  induction l with
  | nil => simp [insSort]
  | cons x xs ih =>
      exact (insertLe_perm le x (insSort le xs)).trans (ih.cons x)

theorem mem_insSort {γ : Type} (le : γ → γ → Bool) {x : γ} {l : List γ} :
    x ∈ insSort le l ↔ x ∈ l :=
  (insSort_perm le l).mem_iff

/-- Head of an insertion: either the inserted element or the old head. -/
theorem insertLe_head {γ : Type} (le : γ → γ → Bool) (x : γ) (l : List γ) :
    insertLe le x l = x :: l ∨
      ∃ z zs, l = z :: zs ∧ insertLe le x l = z :: insertLe le x zs := by
  cases l with
  | nil => left; rfl
  | cons y ys =>
      by_cases h : le x y = true
      · left; simp [insertLe, h]
      · right; exact ⟨y, ys, rfl, by simp [insertLe, h]⟩

theorem chain'_insertLe {γ : Type} (le : γ → γ → Bool)
    (htot : ∀ a b, le a b = true ∨ le b a = true) (x : γ) {l : List γ}
    (hl : l.Chain' (fun a b => le a b = true)) :
    (insertLe le x l).Chain' (fun a b => le a b = true) := by
  induction l with
  | nil => simp [insertLe]
  | cons y ys ih =>
      by_cases h : le x y = true
      · simp only [insertLe, h, if_true]
        exact List.chain'_cons.mpr ⟨h, hl⟩
      · have hyx : le y x = true := (htot x y).resolve_left h
        have hys : ys.Chain' (fun a b => le a b = true) := hl.tail
        have hins := ih hys
        simp only [insertLe, h, if_false]
        rcases insertLe_head le x ys with heq | ⟨z, zs, hzs, heq⟩
        · rw [heq] at hins ⊢
          exact hins.cons hyx
        · rw [heq] at hins ⊢
          refine hins.cons ?_
          have : List.Chain' (fun a b => le a b = true) (y :: z :: zs) := hzs ▸ hl
          exact (List.chain'_cons.mp this).1

theorem chain'_insSort {γ : Type} (le : γ → γ → Bool)
    (htot : ∀ a b, le a b = true ∨ le b a = true) (l : List γ) :
    (insSort le l).Chain' (fun a b => le a b = true) := by
  induction l with
  | nil => simp [insSort]
  | cons x xs ih => exact chain'_insertLe le htot x ih

theorem Dec.toRat_add (a b : Dec) : (a.add b).toRat = a.toRat + b.toRat := by
  unfold Dec.add Dec.toRat
  have h1 : ((10 : Rat) ^ a.exp) ≠ 0 := by positivity
  have h2 : ((10 : Rat) ^ b.exp) ≠ 0 := by positivity
  rw [div_add_div _ _ h1 h2, pow_add]
  push_cast
  ring_nf

theorem Dec.toRat_neg (a : Dec) : a.neg.toRat = -a.toRat := by
  unfold Dec.neg Dec.toRat
  push_cast
  ring

theorem Dec.toRat_zero : Dec.zero.toRat = 0 := by
  unfold Dec.zero Dec.toRat
  norm_num

theorem Dec.isPos_iff (a : Dec) : a.isPos = true ↔ 0 < a.toRat := by
  have hp : (0 : Rat) < (10 : Rat) ^ a.exp := by positivity
  unfold Dec.isPos Dec.toRat
  rw [decide_eq_true_eq, div_pos_iff]
  constructor
  · intro h
    exact Or.inl ⟨by exact_mod_cast h, hp⟩
  · rintro (⟨h, -⟩ | ⟨-, h⟩)
    · exact_mod_cast h
    · exact absurd hp (not_lt.mpr h.le)

theorem Dec.isZero_iff (a : Dec) : a.isZero = true ↔ a.toRat = 0 := by
  have hp : ((10 : Rat) ^ a.exp) ≠ 0 := by positivity
  unfold Dec.isZero Dec.toRat
  rw [beq_iff_eq, div_eq_zero_iff]
  constructor
  · intro h
    exact Or.inl (by exact_mod_cast h)
  · rintro (h | h)
    · exact_mod_cast h
    · exact absurd h hp

/-! ### A counting lemma: group sizes over a covering nodup key list
partition the rows -/

theorem sum_map_ite_zero {β : Type} [DecidableEq β] {b : β} :
    ∀ {keys : List β}, b ∉ keys →
      (keys.map (fun k => if b = k then (1 : Nat) else 0)).sum = 0 := by
  intro keys h
  apply List.sum_eq_zero
  intro x hx
  rcases List.mem_map.mp hx with ⟨k, hk, rfl⟩
  have : b ≠ k := fun hbk => h (hbk ▸ hk)
  simp [this]

theorem sum_map_ite_one {β : Type} [DecidableEq β] {b : β} :
    ∀ {keys : List β}, keys.Nodup → b ∈ keys →
      (keys.map (fun k => if b = k then (1 : Nat) else 0)).sum = 1 := by
  intro keys
  induction keys with
  | nil => intro _ h; cases h
  | cons k ks ih =>
      intro hnd hmem
      rcases List.mem_cons.mp hmem with rfl | hmem
      · have : b ∉ ks := (List.nodup_cons.mp hnd).1
        simp [sum_map_ite_zero this]
      · have hne : b ≠ k := fun hbk => (List.nodup_cons.mp hnd).1 (hbk ▸ hmem)
        simp only [List.map_cons, List.sum_cons, if_neg hne,
          ih (List.nodup_cons.mp hnd).2 hmem]

theorem sum_countP_eq_length {ρ β : Type} [DecidableEq β] (keys : List β)
    (f : ρ → β) (l : List ρ) (hnd : keys.Nodup) (hcov : ∀ x ∈ l, f x ∈ keys) :
    (keys.map (fun k => l.countP (fun x => decide (f x = k)))).sum = l.length := by
  induction l with
  | nil => simp
  | cons x xs ih =>
      have hx : f x ∈ keys := hcov x (List.mem_cons_self x xs)
      have ih' := ih (fun y hy => hcov y (List.mem_cons_of_mem x hy))
      have hsplit :
          (fun k => List.countP (fun y => decide (f y = k)) (x :: xs)) =
            fun k => List.countP (fun y => decide (f y = k)) xs +
              (if f x = k then 1 else 0) := by
        funext k
        rw [List.countP_cons]
        by_cases h : f x = k <;> simp [h]
      rw [hsplit, List.sum_map_add, ih', sum_map_ite_one hnd hx, List.length_cons]

/-! ### Structure of a built pivot table -/

theorem pivotCell_filter {ρ α β : Type} [DecidableEq α] [DecidableEq β]
    (src : List ρ) (rk : ρ → Option α) (ck : ρ → Option β) (a : α) (b : β) :
    pivotCell src rk ck a b =
      (src.filter (fun r => decide (rk r = some a))).countP
        (fun r => decide (ck r = some b)) := by
  rw [pivotCell, List.countP_filter]
  apply List.countP_congr
  intro r _
  by_cases h1 : rk r = some a <;> by_cases h2 : ck r = some b <;> simp [h1, h2]

theorem ck_mem_some_cks {ρ α β : Type} [DecidableEq α] [DecidableEq β]
    {src : List ρ} {rk : ρ → Option α} {ck : ρ → Option β} {x : ρ}
    (hx : x ∈ keptRows src rk ck) :
    ck x ∈ ((keptRows src rk ck).filterMap ck).dedup.map some := by
  have hpred := List.of_mem_filter hx
  have hck : (ck x).isSome := by
    simp only [Bool.and_eq_true] at hpred
    exact hpred.2
  rcases Option.isSome_iff_exists.mp hck with ⟨b, hb⟩
  have hbmem : b ∈ ((keptRows src rk ck).filterMap ck).dedup :=
    List.mem_dedup.mpr (List.mem_filterMap.mpr ⟨x, hx, hb⟩)
  exact hb ▸ List.mem_map.mpr ⟨b, hbmem, rfl⟩

theorem rk_mem_some_rks {ρ α β : Type} [DecidableEq α] [DecidableEq β]
    {src : List ρ} {rk : ρ → Option α} {ck : ρ → Option β} (leα : α → α → Bool)
    {x : ρ} (hx : x ∈ keptRows src rk ck) :
    rk x ∈ (insSort leα ((keptRows src rk ck).filterMap rk).dedup).map some := by
  have hpred := List.of_mem_filter hx
  have hrk : (rk x).isSome := by
    simp only [Bool.and_eq_true] at hpred
    exact hpred.1
  rcases Option.isSome_iff_exists.mp hrk with ⟨a, ha⟩
  have hamem : a ∈ insSort leα ((keptRows src rk ck).filterMap rk).dedup :=
    (mem_insSort leα).mpr (List.mem_dedup.mpr (List.mem_filterMap.mpr ⟨x, hx, ha⟩))
  exact ha ▸ List.mem_map.mpr ⟨a, hamem, rfl⟩

/-- The `Total` column entry of a data row counts the kept rows with that
row key. -/
theorem pivot_rowTotal_eq {ρ α β : Type} [DecidableEq α] [DecidableEq β]
    (src : List ρ) (rk : ρ → Option α) (ck : ρ → Option β) (a : α) :
    ((((keptRows src rk ck).filterMap ck).dedup).map
        (pivotCell (keptRows src rk ck) rk ck a)).sum =
      ((keptRows src rk ck).filter (fun r => decide (rk r = some a))).length := by
  have hmapeq :
      (((keptRows src rk ck).filterMap ck).dedup).map
          (pivotCell (keptRows src rk ck) rk ck a) =
        ((((keptRows src rk ck).filterMap ck).dedup).map some).map
          (fun k => ((keptRows src rk ck).filter
            (fun r => decide (rk r = some a))).countP
              (fun r => decide (ck r = k))) := by
    rw [List.map_map]
    apply List.map_congr_left
    intro b _
    simp only [Function.comp_apply]
    exact pivotCell_filter (keptRows src rk ck) rk ck a b
  rw [hmapeq]
  apply sum_countP_eq_length
  · exact (List.nodup_dedup _).map (Option.some_injective β)
  · intro x hx
    exact ck_mem_some_cks (List.mem_of_mem_filter hx)

/-- The grand total counts all kept rows. -/
theorem pivot_grand_eq {ρ α β : Type} [DecidableEq α] [DecidableEq β]
    (src : List ρ) (rk : ρ → Option α) (ck : ρ → Option β) (leα : α → α → Bool) :
    ((insSort leα (((keptRows src rk ck).filterMap rk).dedup)).map
        (fun a => ((((keptRows src rk ck).filterMap ck).dedup).map
          (pivotCell (keptRows src rk ck) rk ck a)).sum)).sum =
      (keptRows src rk ck).length := by
  have hmapeq :
      (insSort leα (((keptRows src rk ck).filterMap rk).dedup)).map
          (fun a => ((((keptRows src rk ck).filterMap ck).dedup).map
            (pivotCell (keptRows src rk ck) rk ck a)).sum) =
        ((insSort leα (((keptRows src rk ck).filterMap rk).dedup)).map some).map
          (fun k => (keptRows src rk ck).countP (fun r => decide (rk r = k))) := by
    rw [List.map_map]
    apply List.map_congr_left
    intro a _
    rw [pivot_rowTotal_eq src rk ck a, Function.comp_apply,
      List.countP_eq_length_filter]
  rw [hmapeq]
  apply sum_countP_eq_length
  · exact ((insSort_perm leα _).nodup_iff.mpr (List.nodup_dedup _)).map
      (Option.some_injective α)
  · intro x hx
    exact rk_mem_some_rks leα hx

theorem isTotalRow_iff {α : Type} (r : PivotRow α) :
    isTotalRow r = true ↔ r.label = RowLabel.total := by
  cases r with
  | mk lab cells tot => cases lab <;> simp [isTotalRow]

theorem buildPivot_invariant {ρ α β : Type} [DecidableEq α] [DecidableEq β]
    (src : List ρ) (rk : ρ → Option α) (ck : ρ → Option β) (leα : α → α → Bool) :
    pivotInvariant (buildPivot src rk ck leα) (keptRows src rk ck).length := by
  refine ⟨(insSort leα (((keptRows src rk ck).filterMap rk).dedup)).map
      (fun a => PivotRow.mk (RowLabel.key a)
        ((((keptRows src rk ck).filterMap ck).dedup).map
          (pivotCell (keptRows src rk ck) rk ck a))
        ((((keptRows src rk ck).filterMap ck).dedup).map
          (pivotCell (keptRows src rk ck) rk ck a)).sum),
    PivotRow.mk RowLabel.total
      ((((keptRows src rk ck).filterMap ck).dedup).map
        (fun b => ((insSort leα (((keptRows src rk ck).filterMap rk).dedup)).map
          (fun a => pivotCell (keptRows src rk ck) rk ck a b)).sum))
      ((insSort leα (((keptRows src rk ck).filterMap rk).dedup)).map
        (fun a => ((((keptRows src rk ck).filterMap ck).dedup).map
          (pivotCell (keptRows src rk ck) rk ck a)).sum)).sum,
    rfl, rfl, ?_, ?_, ?_, ?_⟩
  · intro r hr
    rcases List.mem_map.mp hr with ⟨a, -, rfl⟩
    intro h
    cases h
  · intro r hr
    rcases List.mem_map.mp hr with ⟨a, -, rfl⟩
    rfl
  · rw [List.map_map]
    rfl
  · exact pivot_grand_eq src rk ck leα

theorem sortPivotDesc_rows {α β : Type} (p : PivotTable α β)
    (ds : List (PivotRow α)) (tr : PivotRow α) (hrows : p.rows = ds ++ [tr])
    (htr : tr.label = RowLabel.total) (hds : ∀ r ∈ ds, r.label ≠ RowLabel.total) :
    (sortPivotDesc p).rows =
      (insSort (fun a b => decide (a.total ≤ b.total)) ds).reverse ++ [tr] := by
  show (insSort _ (p.rows.filter (fun r => !isTotalRow r))).reverse ++
      p.rows.filter (fun r => isTotalRow r) = _
  have h1 : ds.filter (fun r => !isTotalRow r) = ds := by
    apply List.filter_eq_self.mpr
    intro r hr
    simp only [Bool.not_eq_true']
    exact (Bool.not_eq_true _).mp fun h => hds r hr ((isTotalRow_iff r).mp h)
  have h2 : ds.filter (fun r => isTotalRow r) = [] := by
    apply List.filter_eq_nil_iff.mpr
    intro r hr h
    exact hds r hr ((isTotalRow_iff r).mp h)
  have h3 : [tr].filter (fun r => !isTotalRow r) = [] := by
    apply List.filter_eq_nil_iff.mpr
    intro r hr h
    rcases List.mem_singleton.mp hr with rfl
    rw [Bool.not_eq_true', ← Bool.not_eq_true] at h
    exact h ((isTotalRow_iff r).mpr htr)
  have h4 : [tr].filter (fun r => isTotalRow r) = [tr] := by
    apply List.filter_eq_self.mpr
    intro r hr
    rcases List.mem_singleton.mp hr with rfl
    exact (isTotalRow_iff r).mpr htr
  rw [hrows, List.filter_append, List.filter_append, h1, h2, h3, h4,
    List.append_nil, List.nil_append]

theorem sortPivotDesc_invariant {α β : Type} {p : PivotTable α β} {n : Nat}
    (h : pivotInvariant p n) : pivotInvariant (sortPivotDesc p) n := by
  obtain ⟨ds, tr, hrows, htr, hds, hsum, htot, hn⟩ := h
  refine ⟨(insSort (fun a b => decide (a.total ≤ b.total)) ds).reverse, tr,
    sortPivotDesc_rows p ds tr hrows htr hds, htr, ?_, ?_, ?_, hn⟩
  · intro r hr
    exact hds r ((mem_insSort _).mp (List.mem_reverse.mp hr))
  · intro r hr
    exact hsum r ((mem_insSort _).mp (List.mem_reverse.mp hr))
  · rw [List.map_reverse, List.sum_reverse,
      ((insSort_perm (fun a b => decide (a.total ≤ b.total)) ds).map
        (fun r => r.total)).sum_eq]
    exact htot

theorem keptRows_situacao (rows : List ReportRow) :
    keptRows rows mesesKey situacaoKey = rows := by
  apply List.filter_eq_self.mpr
  intro r _
  simp [mesesKey, situacaoKey]

theorem keptRows_vendedor (rows : List ReportRow) :
    keptRows rows vendedorCompleto mesesKey =
      rows.filter (fun r => (vendedorCompleto r).isSome) := by
  apply List.filter_congr
  intro r _
  simp [mesesKey]

theorem keptRows_cidade (rows : List ReportRow) :
    keptRows rows (fun r => r.cidade) mesesKey =
      rows.filter (fun r => r.cidade.isSome) := by
  apply List.filter_congr
  intro r _
  simp [mesesKey]

/-- C5: for each of the three pivot tables built from a non-empty
inactivity report (bucket x status, salesperson x bucket, city x bucket),
every non-total row's cells sum to that row's `Total`, the row `Total`s sum
to the grand total, and the grand total equals the number of report rows
with a non-null key for that pivot's row dimension (all rows for
bucket x status, rows with a named last salesperson for the salesperson
pivot, rows with a non-null city for the city pivot); rows with a null key
are dropped from that pivot only. -/
theorem claim_C5_pivot_invariants (rows : List ReportRow) (hne : rows ≠ []) :
    pivotInvariant (pivot_situacao rows) rows.length ∧
    pivotInvariant (pivot_vendedor rows)
      ((rows.filter (fun r => (vendedorCompleto r).isSome)).length) ∧
    pivotInvariant (pivot_cidade rows)
      ((rows.filter (fun r => r.cidade.isSome)).length) := by
  refine ⟨?_, ?_, ?_⟩
  · have h := buildPivot_invariant rows mesesKey situacaoKey (fun a b => decide (a ≤ b))
    rwa [keptRows_situacao] at h
  · have h := buildPivot_invariant rows vendedorCompleto mesesKey strLeB
    rw [keptRows_vendedor] at h
    exact sortPivotDesc_invariant h
  · have h := buildPivot_invariant rows (fun r => r.cidade) mesesKey strLeB
    rw [keptRows_cidade] at h
    exact sortPivotDesc_invariant h

theorem maxByData_mem : ∀ {l : List Sale} {s : Sale}, maxByData l = some s → s ∈ l := by
  intro l
  induction l with
  | nil => intro s h; cases h
  | cons x xs ih =>
      intro s h
      rw [maxByData] at h
      cases hm : maxByData xs with
      | none =>
          simp only [hm] at h
          cases h
          exact List.mem_cons_self x xs
      | some t =>
          simp only [hm] at h
          by_cases hlt : Date.ltB x.data_emissao t.data_emissao = true
          · rw [if_pos hlt] at h
            cases h
            exact List.mem_cons_of_mem x (ih hm)
          · rw [if_neg hlt] at h
            cases h
            exact List.mem_cons_self x xs

theorem maxByData_isSome : ∀ {l : List Sale}, l ≠ [] → ∃ s, maxByData l = some s := by
  intro l
  cases l with
  | nil => intro h; exact absurd rfl h
  | cons x xs =>
      intro _
      rw [maxByData]
      cases hm : maxByData xs with
      | none => exact ⟨x, rfl⟩
      | some t =>
          by_cases hlt : Date.ltB x.data_emissao t.data_emissao = true
          · exact ⟨t, if_pos hlt⟩
          · exact ⟨x, if_neg hlt⟩

theorem rowsFor_mem {db : DB} {today : Date} {meses : Int}
    {fs cs vs : List String} :
    ∀ {cl : List Cliente} {rs : List ReportRow} {r : ReportRow},
      rowsFor db today meses fs cs vs cl = .ok rs → r ∈ rs →
      ∃ c ∈ cl, ∃ s,
        lastPurchase db fs vs c.cliente = some s ∧
        meses ≤ meses_sem_compra_calc today s.data_emissao ∧
        cidPass cs c = true ∧
        situacaoOf c = .ok r.situacao ∧
        r = mkRow db today c s r.situacao := by
  intro cl
  induction cl with
  | nil =>
      intro rs r h hr
      cases h
      cases hr
  | cons c rest ih =>
      intro rs r h hr
      rw [rowsFor] at h
      cases h1 : lastPurchase db fs vs c.cliente with
      | none =>
          simp only [h1] at h
          rcases ih h hr with ⟨c', hc', rest'⟩
          exact ⟨c', List.mem_cons_of_mem c hc', rest'⟩
      | some s =>
          simp only [h1] at h
          by_cases h2 : (decide (meses ≤ meses_sem_compra_calc today s.data_emissao) &&
              cidPass cs c) = true
          · rw [if_pos h2] at h
            cases h3 : situacaoOf c with
            | error e => simp only [h3] at h; cases h
            | ok st =>
                simp only [h3] at h
                cases h4 : rowsFor db today meses fs cs vs rest with
                | error e => simp only [h4] at h; cases h
                | ok rs' =>
                    simp only [h4] at h
                    cases h
                    rcases (Bool.and_eq_true _ _).mp h2 with ⟨h2a, h2b⟩
                    rcases List.mem_cons.mp hr with rfl | hr'
                    · refine ⟨c, List.mem_cons_self c rest, s, h1,
                        of_decide_eq_true h2a, h2b, ?_, rfl⟩
                      exact h3
                    · rcases ih h4 hr' with ⟨c', hc', rest'⟩
                      exact ⟨c', List.mem_cons_of_mem c hc', rest'⟩
          · rw [if_neg h2] at h
            rcases ih h hr with ⟨c', hc', rest'⟩
            exact ⟨c', List.mem_cons_of_mem c hc', rest'⟩

theorem report_mem {db : DB} {today : Date} {meses : Int}
    {fs cs vs : List String} {r : ReportRow}
    (hr : r ∈ get_clientes_sem_compra db today meses fs cs vs) :
    ∃ rs, rowsFor db today meses fs cs vs db.clientes = .ok rs ∧ r ∈ rs := by
  unfold get_clientes_sem_compra at hr
  cases h : rowsFor db today meses fs cs vs db.clientes with
  | ok rs =>
      rw [h] at hr
      exact ⟨rs, rfl, (mem_insSort _).mp hr⟩
  | error e =>
      rw [h] at hr
      cases hr

/-- Every row of the report comes from a customer record, the `rn = 1` sale
of that customer under the supplier/salesperson filters, the threshold
test and the city clause. -/
theorem report_row_spec {db : DB} {today : Date} {meses : Int}
    {fs cs vs : List String} {r : ReportRow}
    (hr : r ∈ get_clientes_sem_compra db today meses fs cs vs) :
    ∃ c ∈ db.clientes, ∃ s,
      lastPurchase db fs vs c.cliente = some s ∧
      meses ≤ meses_sem_compra_calc today s.data_emissao ∧
      cidPass cs c = true ∧
      situacaoOf c = .ok r.situacao ∧
      r = mkRow db today c s r.situacao := by
  rcases report_mem hr with ⟨rs, hok, hmem⟩
  exact rowsFor_mem hok hmem

theorem get_clientes_sem_compra_error {db : DB} {today : Date} {m : Int}
    {fs cs vs : List String} {e : String}
    (h : rowsFor db today m fs cs vs db.clientes = .error e) :
    get_clientes_sem_compra db today m fs cs vs = [] := by
  unfold get_clientes_sem_compra
  rw [h]

theorem get_clientes_sem_compra_ok {db : DB} {today : Date} {m : Int}
    {fs cs vs : List String} {rs : List ReportRow}
    (h : rowsFor db today m fs cs vs db.clientes = .ok rs) :
    get_clientes_sem_compra db today m fs cs vs =
      insSort (fun a b => decide (b.meses_sem_compra ≤ a.meses_sem_compra)) rs := by
  unfold get_clientes_sem_compra
  rw [h]

theorem situacaoOf_isOk {c : Cliente}
    (h : c.situacao = "S" ∨ c.antecipado = "A28" ∨
      (pgNumeric c.limite_aberto).isSome = true) :
    ∃ st, situacaoOf c = .ok st := by
  unfold situacaoOf
  by_cases h1 : c.situacao = "S"
  · rw [if_pos h1]; exact ⟨_, rfl⟩
  · rw [if_neg h1]
    by_cases h2 : c.antecipado = "A28"
    · rw [if_pos h2]; exact ⟨_, rfl⟩
    · rw [if_neg h2]
      rcases h with h | h | h
      · exact absurd h h1
      · exact absurd h h2
      · rcases Option.isSome_iff_exists.mp h with ⟨v, hv⟩
        rw [hv]
        exact ⟨_, rfl⟩

theorem rowsFor_ok_of_parsable {db : DB} {today : Date} {m : Int}
    {fs cs vs : List String} :
    ∀ {cl : List Cliente},
      (∀ c ∈ cl, c.situacao = "S" ∨ c.antecipado = "A28" ∨
        (pgNumeric c.limite_aberto).isSome = true) →
      ∃ rs, rowsFor db today m fs cs vs cl = .ok rs := by
  intro cl
  induction cl with
  | nil => intro _; exact ⟨[], rfl⟩
  | cons c rest ih =>
      intro hc
      rcases ih (fun c' h' => hc c' (List.mem_cons_of_mem _ h')) with ⟨rs, hrs⟩
      cases h1 : lastPurchase db fs vs c.cliente with
      | none =>
          refine ⟨rs, ?_⟩
          simp only [rowsFor, h1]
          exact hrs
      | some s =>
          by_cases h2 : (decide (m ≤ meses_sem_compra_calc today s.data_emissao) &&
              cidPass cs c) = true
          · rcases situacaoOf_isOk (hc c (List.mem_cons_self c rest)) with ⟨st, hst⟩
            refine ⟨mkRow db today c s st :: rs, ?_⟩
            simp only [rowsFor, h1, hst, hrs]
            rw [if_pos h2]
          · refine ⟨rs, ?_⟩
            simp only [rowsFor, h1]
            rw [if_neg h2]
            exact hrs

theorem rowsFor_exists {db : DB} {today : Date} {meses : Int}
    {fs cs vs : List String} {c : Cliente} :
    ∀ {cl : List Cliente} {rs : List ReportRow},
      rowsFor db today meses fs cs vs cl = .ok rs → c ∈ cl →
      ∀ {s : Sale}, lastPurchase db fs vs c.cliente = some s →
      meses ≤ meses_sem_compra_calc today s.data_emissao →
      cidPass cs c = true →
      ∃ r ∈ rs, r.cliente = c.cliente := by
  intro cl
  induction cl with
  | nil => intro rs _ hc; cases hc
  | cons c0 rest ih =>
      intro rs h hc s hs hm hcid
      rcases List.mem_cons.mp hc with rfl | hc'
      · simp only [rowsFor, hs] at h
        have hcond : (decide (meses ≤ meses_sem_compra_calc today s.data_emissao) &&
            cidPass cs c) = true :=
          (Bool.and_eq_true _ _).mpr ⟨decide_eq_true hm, hcid⟩
        rw [if_pos hcond] at h
        cases h3 : situacaoOf c with
        | error e => simp only [h3] at h; cases h
        | ok st =>
            simp only [h3] at h
            cases h4 : rowsFor db today meses fs cs vs rest with
            | error e => simp only [h4] at h; cases h
            | ok rs' =>
                simp only [h4] at h
                cases h
                exact ⟨mkRow db today c s st, List.mem_cons_self _ _, rfl⟩
      · simp only [rowsFor] at h
        cases h1 : lastPurchase db fs vs c0.cliente with
        | none =>
            simp only [h1] at h
            exact ih h hc' hs hm hcid
        | some s0 =>
            simp only [h1] at h
            by_cases h2 : (decide (meses ≤ meses_sem_compra_calc today s0.data_emissao) &&
                cidPass cs c0) = true
            · rw [if_pos h2] at h
              cases h3 : situacaoOf c0 with
              | error e => simp only [h3] at h; cases h
              | ok st =>
                  simp only [h3] at h
                  cases h4 : rowsFor db today meses fs cs vs rest with
                  | error e => simp only [h4] at h; cases h
                  | ok rs' =>
                      simp only [h4] at h
                      cases h
                      rcases ih h4 hc' hs hm hcid with ⟨r, hr, hrc⟩
                      exact ⟨r, List.mem_cons_of_mem _ hr, hrc⟩
            · rw [if_neg h2] at h
              exact ih h hc' hs hm hcid

/-- C2: every report row's status label is the `CASE` expression evaluated
on that customer's record, and the `CASE` follows strict first-match
precedence: suspension flag `'S'` wins regardless of every other field;
otherwise deferred-payment code `'A28'` gives `Antecipado`; otherwise a
parsed open-credit-limit equal to zero gives `Suspenso`; otherwise
`Liberado`. -/
theorem claim_C2_status_precedence :
    (∀ (db : DB) (today : Date) (meses : Int) (fs cs vs : List String)
        (r : ReportRow), r ∈ get_clientes_sem_compra db today meses fs cs vs →
        ∃ c ∈ db.clientes, c.cliente = r.cliente ∧
          situacaoOf c = .ok r.situacao) ∧
    (∀ c : Cliente, c.situacao = "S" → situacaoOf c = .ok "Suspenso") ∧
    (∀ c : Cliente, c.situacao ≠ "S" → c.antecipado = "A28" →
      situacaoOf c = .ok "Antecipado") ∧
    (∀ (c : Cliente) (v : Dec), c.situacao ≠ "S" → c.antecipado ≠ "A28" →
      pgNumeric c.limite_aberto = some v →
      situacaoOf c = .ok (if v.toRat = 0 then "Suspenso" else "Liberado")) := by
  refine ⟨?_, ?_, ?_, ?_⟩
  · intro db today meses fs cs vs r hr
    rcases report_row_spec hr with ⟨c, hc, s, -, -, -, hst, hrow⟩
    refine ⟨c, hc, ?_, hst⟩
    rw [hrow]
    rfl
  · intro c h
    unfold situacaoOf
    rw [if_pos h]
  · intro c h1 h2
    unfold situacaoOf
    rw [if_neg h1, if_pos h2]
  · intro c v h1 h2 hv
    unfold situacaoOf
    rw [if_neg h1, if_neg h2, hv]
    show Except.ok (if v.isZero then "Suspenso" else "Liberado") = _
    exact congrArg Except.ok (if_congr (Dec.isZero_iff v) rfl rfl)

/-- C4: every report row's `meses_sem_compra` equals
`(current_year - last_year) * 12 + (current_month - last_month)` and meets
the caller-supplied threshold; the formula ignores the day of month, and a
last purchase in the current calendar month yields 0. -/
theorem claim_C4_months_inactive :
    (∀ (db : DB) (today : Date) (meses : Int) (fs cs vs : List String)
        (r : ReportRow), r ∈ get_clientes_sem_compra db today meses fs cs vs →
        r.meses_sem_compra =
          ((today.year : Int) - (r.data_ultima_compra.year : Int)) * 12 +
            ((today.month : Int) - (r.data_ultima_compra.month : Int)) ∧
        meses ≤ r.meses_sem_compra) ∧
    (∀ t a b : Date, a.year = b.year → a.month = b.month →
      meses_sem_compra_calc t a = meses_sem_compra_calc t b) ∧
    (∀ t d : Date, d.year = t.year → d.month = t.month →
      meses_sem_compra_calc t d = 0) := by
  refine ⟨?_, ?_, ?_⟩
  · intro db today meses fs cs vs r hr
    rcases report_row_spec hr with ⟨c, -, s, -, hth, -, -, hrow⟩
    have h1 : r.meses_sem_compra = meses_sem_compra_calc today s.data_emissao := by
      rw [hrow]; rfl
    have h2 : r.data_ultima_compra = s.data_emissao := by
      rw [hrow]; rfl
    constructor
    · rw [h1, h2]
      rfl
    · rw [h1]
      exact hth
  · intro t a b hy hm
    unfold meses_sem_compra_calc
    rw [hy, hm]
  · intro t d hy hm
    unfold meses_sem_compra_calc
    rw [hy, hm]
    ring

/-- C9: the city selection only gates whole customer rows after the
per-customer last-purchase resolution: rows for the same customer obtained
under two city selections agree on the last-purchase date, the last
salesperson code and the months-inactive value. -/
theorem claim_C9_city_frame (db : DB) (today : Date) (meses : Int)
    (fs vs cs cs' : List String) (r r' : ReportRow)
    (hr : r ∈ get_clientes_sem_compra db today meses fs cs vs)
    (hr' : r' ∈ get_clientes_sem_compra db today meses fs cs' vs)
    (hc : r.cliente = r'.cliente) :
    r.data_ultima_compra = r'.data_ultima_compra ∧
    r.ultimo_vendedor_cod = r'.ultimo_vendedor_cod ∧
    r.meses_sem_compra = r'.meses_sem_compra := by
  rcases report_row_spec hr with ⟨c, -, s, hs, -, -, -, hrow⟩
  rcases report_row_spec hr' with ⟨c', -, s', hs', -, -, -, hrow'⟩
  have h1 : r.cliente = c.cliente := by rw [hrow]; rfl
  have h2 : r'.cliente = c'.cliente := by rw [hrow']; rfl
  have hcc : c.cliente = c'.cliente := by rw [← h1, ← h2, hc]
  have hss : (some s : Option Sale) = some s' := by rw [← hs, ← hs', hcc]
  cases hss
  refine ⟨?_, ?_, ?_⟩
  · rw [hrow, hrow']; rfl
  · rw [hrow, hrow']; rfl
  · rw [hrow, hrow']; rfl

/-- C10 (amended): `main` hard-codes the inactivity threshold at 0, and the
generated report contains a row for every customer that passes the city
clause and has at least one scanned sale, provided the query succeeds and
none of that customer's scanned sales is dated after the current month -
in particular a customer whose last purchase is in the current calendar
month (`meses_sem_compra = 0`) appears.  (A customer whose last purchase
is future-dated gets negative months and is dropped even at threshold 0;
see the counterexample.) -/
theorem claim_C10_threshold_zero :
    mainThreshold = 0 ∧
    (∀ (db : DB) (today : Date) (fs cs vs : List String),
      mainReport db today fs cs vs =
        get_clientes_sem_compra db today 0 fs cs vs) ∧
    (∀ (db : DB) (today : Date) (fs cs vs : List String) (c : Cliente)
        (s : Sale) (rs : List ReportRow),
      rowsFor db today 0 fs cs vs db.clientes = .ok rs →
      c ∈ db.clientes →
      s ∈ ultimas_vendas_scan db fs vs → s.cliente = c.cliente →
      cidPass cs c = true →
      (∀ s' ∈ ultimas_vendas_scan db fs vs, s'.cliente = c.cliente →
        0 ≤ meses_sem_compra_calc today s'.data_emissao) →
      ∃ r ∈ mainReport db today fs cs vs, r.cliente = c.cliente) := by
  refine ⟨rfl, fun _ _ _ _ _ => rfl, ?_⟩
  intro db today fs cs vs c s rs hok hc hscan hsc hcid hdates
  have hmemf : s ∈ (ultimas_vendas_scan db fs vs).filter
      (fun t => t.cliente == c.cliente) :=
    List.mem_filter.mpr ⟨hscan, beq_iff_eq.mpr hsc⟩
  have hne : (ultimas_vendas_scan db fs vs).filter
      (fun t => t.cliente == c.cliente) ≠ [] := by
    intro hnil
    rw [hnil] at hmemf
    cases hmemf
  rcases maxByData_isSome hne with ⟨t, ht⟩
  have htmem := maxByData_mem ht
  have htc : t.cliente = c.cliente := by
    simpa using List.of_mem_filter htmem
  have hmes : 0 ≤ meses_sem_compra_calc today t.data_emissao :=
    hdates t (List.mem_of_mem_filter htmem) htc
  have hlp : lastPurchase db fs vs c.cliente = some t := ht
  rcases rowsFor_exists hok hc hlp hmes hcid with ⟨r, hr, hrc⟩
  refine ⟨r, ?_, hrc⟩
  show r ∈ get_clientes_sem_compra db today 0 fs cs vs
  rw [get_clientes_sem_compra_ok hok]
  exact (mem_insSort _).mpr hr

/-- C7 (amended): the pipeline never raises - a query failure is caught
and surfaced as an empty report - but an unparsable open-credit-limit
reached by the zero-limit rule fails the whole query, so no customer rows
at all are produced; the query succeeds whenever every scanned customer is
suspended, anticipated, or has a parsable credit limit, the first two
`CASE` branches short-circuiting the cast of `limite_aberto`. -/
theorem claim_C7_unparsable_limit :
    (∀ (db : DB) (today : Date) (m : Int) (fs cs vs : List String)
        (e : String),
      rowsFor db today m fs cs vs db.clientes = .error e →
      get_clientes_sem_compra db today m fs cs vs = []) ∧
    (∀ (db : DB) (today : Date) (m : Int) (fs cs vs : List String),
      (∀ c ∈ db.clientes, c.situacao = "S" ∨ c.antecipado = "A28" ∨
        (pgNumeric c.limite_aberto).isSome = true) →
      ∃ rs, rowsFor db today m fs cs vs db.clientes = .ok rs ∧
        get_clientes_sem_compra db today m fs cs vs =
          insSort (fun a b => decide (b.meses_sem_compra ≤ a.meses_sem_compra)) rs) ∧
    (∀ c : Cliente, c.situacao = "S" ∨ c.antecipado = "A28" →
      ∃ st, situacaoOf c = .ok st) := by
  refine ⟨?_, ?_, ?_⟩
  · intro db today m fs cs vs e h
    exact get_clientes_sem_compra_error h
  · intro db today m fs cs vs hp
    rcases rowsFor_ok_of_parsable hp with ⟨rs, hrs⟩
    exact ⟨rs, hrs, get_clientes_sem_compra_ok hrs⟩
  · intro c hc
    exact situacaoOf_isOk (hc.elim Or.inl (fun h2 => Or.inr (Or.inl h2)))

/-! ### The inactivity query ignores the transaction type -/

theorem scan_setTipo (db : DB) (f : Sale → String) (fs vs : List String) :
    ultimas_vendas_scan (db.setTipo f) fs vs =
      (ultimas_vendas_scan db fs vs).map (fun s => { s with tipo := f s }) := by
  dsimp only [ultimas_vendas_scan, DB.setTipo]
  rw [List.filter_map]
  exact congrArg _ (List.filter_congr fun s _ => rfl)

theorem maxByData_map_tipo (f : Sale → String) :
    ∀ l : List Sale,
      maxByData (l.map (fun s => { s with tipo := f s })) =
        (maxByData l).map (fun s => { s with tipo := f s }) := by
  intro l
  induction l with
  | nil => rfl
  | cons x xs ih =>
      simp only [List.map_cons, maxByData, ih]
      cases maxByData xs with
      | none => rfl
      | some t =>
          by_cases h : Date.ltB x.data_emissao t.data_emissao = true <;>
            simp [h]

theorem lastPurchase_setTipo (db : DB) (f : Sale → String)
    (fs vs : List String) (cid : Nat) :
    lastPurchase (db.setTipo f) fs vs cid =
      (lastPurchase db fs vs cid).map (fun s => { s with tipo := f s }) := by
  unfold lastPurchase
  rw [scan_setTipo, List.filter_map, maxByData_map_tipo]
  exact congrArg _ (congrArg _ (List.filter_congr fun s _ => rfl))

theorem rowsFor_setTipo (db : DB) (f : Sale → String) (today : Date)
    (m : Int) (fs cs vs : List String) :
    ∀ cl : List Cliente,
      rowsFor (db.setTipo f) today m fs cs vs cl =
        rowsFor db today m fs cs vs cl := by
  intro cl
  induction cl with
  | nil => rfl
  | cons c rest ih =>
      simp only [rowsFor, lastPurchase_setTipo, ih]
      cases lastPurchase db fs vs c.cliente with
      | none => rfl
      | some s => rfl

/-- C1 (amended): the inactivity query has no condition on the transaction
type: its result is invariant under arbitrarily rewriting every sale's
`tipo`, so return/credit transactions participate in last-purchase
resolution exactly like regular sales, and a customer whose only
transactions are returns still appears in the report. -/
theorem claim_C1_tipo_ignored (db : DB) (f : Sale → String) (today : Date)
    (m : Int) (fs cs vs : List String) :
    get_clientes_sem_compra (db.setTipo f) today m fs cs vs =
      get_clientes_sem_compra db today m fs cs vs := by
  unfold get_clientes_sem_compra
  have hcl : (db.setTipo f).clientes = db.clientes := rfl
  rw [hcl, rowsFor_setTipo]

/-! ### Neutral filter selections -/

theorem passSel_all {sent : String} {sel : List String}
    (h : sent ∈ sel ∨ sel = []) : passSel sent sel = fun _ => true := by
  funext x
  unfold passSel
  rw [if_pos h]

theorem cidPass_all {sel : List String} (h : "Todas" ∈ sel ∨ sel = []) :
    cidPass sel = fun _ => true := by
  funext c
  unfold cidPass
  rw [if_pos h]

theorem rowsFor_congr {db : DB} {today : Date} {m : Int}
    {fs cs vs fs' cs' vs' : List String}
    (hscan : ultimas_vendas_scan db fs vs = ultimas_vendas_scan db fs' vs')
    (hcid : cidPass cs = cidPass cs') :
    ∀ cl : List Cliente,
      rowsFor db today m fs cs vs cl = rowsFor db today m fs' cs' vs' cl := by
  intro cl
  induction cl with
  | nil => rfl
  | cons c rest ih =>
      have hlp : lastPurchase db fs vs c.cliente =
          lastPurchase db fs' vs' c.cliente := by
        unfold lastPurchase
        rw [hscan]
      simp only [rowsFor, ih, hlp, hcid]

theorem scan_forn_neutral {db : DB} {fs fs' vs : List String}
    (hf : "Todos" ∈ fs ∨ fs = []) (hf' : "Todos" ∈ fs' ∨ fs' = []) :
    ultimas_vendas_scan db fs vs = ultimas_vendas_scan db fs' vs := by
  unfold ultimas_vendas_scan
  rw [passSel_all hf, passSel_all hf']

theorem scan_vend_neutral {db : DB} {fs vs vs' : List String}
    (hv : "Todos" ∈ vs ∨ vs = []) (hv' : "Todos" ∈ vs' ∨ vs' = []) :
    ultimas_vendas_scan db fs vs = ultimas_vendas_scan db fs vs' := by
  unfold ultimas_vendas_scan
  rw [passSel_all hv, passSel_all hv']

theorem evoScan_forn_neutral {db : DB} {today : Date} {fs fs' cs vs : List String}
    (hf : "Todos" ∈ fs ∨ fs = []) (hf' : "Todos" ∈ fs' ∨ fs' = []) :
    evoScan db today fs cs vs = evoScan db today fs' cs vs := by
  unfold evoScan
  rw [passSel_all hf, passSel_all hf']

theorem evoScan_cid_neutral {db : DB} {today : Date} {fs cs cs' vs : List String}
    (hc : "Todas" ∈ cs ∨ cs = []) (hc' : "Todas" ∈ cs' ∨ cs' = []) :
    evoScan db today fs cs vs = evoScan db today fs cs' vs := by
  unfold evoScan
  rw [cidPass_all hc, cidPass_all hc']

theorem evoScan_vend_neutral {db : DB} {today : Date} {fs cs vs vs' : List String}
    (hv : "Todos" ∈ vs ∨ vs = []) (hv' : "Todos" ∈ vs' ∨ vs' = []) :
    evoScan db today fs cs vs = evoScan db today fs cs vs' := by
  unfold evoScan
  rw [passSel_all hv, passSel_all hv']

/-- C8: for every filter dimension separately - the other two selections
held arbitrary - a selection containing the sentinel and the empty
selection both impose no constraint: the predicate collapses to `true`
(never to "match nothing"), and the inactivity report and the evolution
series coincide across any two such neutral selections of that dimension,
hence with the dimension omitted. -/
theorem claim_C8_neutral_selections :
    (∀ (sent : String) (sel : List String) (x : String),
      sent ∈ sel ∨ sel = [] → passSel sent sel x = true) ∧
    (∀ (sel : List String) (c : Cliente),
      "Todas" ∈ sel ∨ sel = [] → cidPass sel c = true) ∧
    (∀ (db : DB) (today : Date) (m : Int) (fs fs' cs vs : List String),
      "Todos" ∈ fs ∨ fs = [] → "Todos" ∈ fs' ∨ fs' = [] →
      get_clientes_sem_compra db today m fs cs vs =
        get_clientes_sem_compra db today m fs' cs vs ∧
      get_evolucao_clientes db today fs cs vs =
        get_evolucao_clientes db today fs' cs vs) ∧
    (∀ (db : DB) (today : Date) (m : Int) (fs cs cs' vs : List String),
      "Todas" ∈ cs ∨ cs = [] → "Todas" ∈ cs' ∨ cs' = [] →
      get_clientes_sem_compra db today m fs cs vs =
        get_clientes_sem_compra db today m fs cs' vs ∧
      get_evolucao_clientes db today fs cs vs =
        get_evolucao_clientes db today fs cs' vs) ∧
    (∀ (db : DB) (today : Date) (m : Int) (fs cs vs vs' : List String),
      "Todos" ∈ vs ∨ vs = [] → "Todos" ∈ vs' ∨ vs' = [] →
      get_clientes_sem_compra db today m fs cs vs =
        get_clientes_sem_compra db today m fs cs vs' ∧
      get_evolucao_clientes db today fs cs vs =
        get_evolucao_clientes db today fs cs vs') := by
  refine ⟨?_, ?_, ?_, ?_, ?_⟩
  · intro sent sel x h
    unfold passSel
    rw [if_pos h]
  · intro sel c h
    unfold cidPass
    rw [if_pos h]
  · intro db today m fs fs' cs vs hf hf'
    constructor
    · unfold get_clientes_sem_compra
      rw [rowsFor_congr (scan_forn_neutral hf hf') rfl]
    · unfold get_evolucao_clientes getEvolucaoE
      rw [evoScan_forn_neutral hf hf']
  · intro db today m fs cs cs' vs hc hc'
    constructor
    · unfold get_clientes_sem_compra
      rw [rowsFor_congr rfl ((cidPass_all hc).trans (cidPass_all hc').symm)]
    · unfold get_evolucao_clientes getEvolucaoE
      rw [evoScan_cid_neutral hc hc']
  · intro db today m fs cs vs vs' hv hv'
    constructor
    · unfold get_clientes_sem_compra
      rw [rowsFor_congr (scan_vend_neutral hv hv') rfl]
    · unfold get_evolucao_clientes getEvolucaoE
      rw [evoScan_vend_neutral hv hv']

/-! ### The evolution aggregator -/

/-- The single `SUM(CASE ...)` of the source computes, in value, the
spec-side "sum of sale values minus sum of return values". -/
theorem totalVenda_spec :
    ∀ {l : List Sale} {t : Dec}, totalVenda l = .ok t →
      ∃ sv sd, sumParsed (l.filter (fun s => decide (s.tipo = "V"))) = .ok sv ∧
        sumParsed (l.filter (fun s => decide (s.tipo = "D"))) = .ok sd ∧
        t.toRat = sv.toRat - sd.toRat := by
  intro l
  induction l with
  | nil =>
      intro t h
      cases h
      exact ⟨Dec.zero, Dec.zero, rfl, rfl, by rw [Dec.toRat_zero]; ring⟩
  | cons s rest ih =>
      intro t h
      by_cases hV : s.tipo = "V"
      · cases hp : parseMonetary s.valor_liq with
        | none =>
            simp only [totalVenda, caseValue, if_pos hV, hp] at h
            cases h
        | some q =>
            simp only [totalVenda, caseValue, if_pos hV, hp] at h
            cases htr : totalVenda rest with
            | error e => simp only [htr] at h; cases h
            | ok tr =>
                simp only [htr] at h
                cases h
                rcases ih htr with ⟨sv, sd, hsv, hsd, hval⟩
                refine ⟨q.add sv, sd, ?_, ?_, ?_⟩
                · rw [List.filter_cons_of_pos (by exact decide_eq_true hV)]
                  simp only [sumParsed, hp, hsv]
                · rw [List.filter_cons_of_neg
                    (by simp [hV])]
                  exact hsd
                · rw [Dec.toRat_add, Dec.toRat_add, hval]
                  ring
      · by_cases hD : s.tipo = "D"
        · cases hp : parseMonetary s.valor_liq with
          | none =>
              simp only [totalVenda, caseValue, if_neg hV, if_pos hD, hp] at h
              cases h
          | some q =>
              simp only [totalVenda, caseValue, if_neg hV, if_pos hD, hp] at h
              cases htr : totalVenda rest with
              | error e => simp only [htr] at h; cases h
              | ok tr =>
                  simp only [htr] at h
                  cases h
                  rcases ih htr with ⟨sv, sd, hsv, hsd, hval⟩
                  refine ⟨sv, q.add sd, ?_, ?_, ?_⟩
                  · rw [List.filter_cons_of_neg (by simp [hV])]
                    exact hsv
                  · rw [List.filter_cons_of_pos (by exact decide_eq_true hD)]
                    simp only [sumParsed, hp, hsd]
                  · rw [Dec.toRat_add, Dec.toRat_add, Dec.toRat_neg, hval]
                    ring
        · simp only [totalVenda, caseValue, if_neg hV, if_neg hD] at h
          cases htr : totalVenda rest with
          | error e => simp only [htr] at h; cases h
          | ok tr =>
              simp only [htr] at h
              cases h
              rcases ih htr with ⟨sv, sd, hsv, hsd, hval⟩
              refine ⟨sv, sd, ?_, ?_, ?_⟩
              · rw [List.filter_cons_of_neg (by simp [hV])]
                exact hsv
              · rw [List.filter_cons_of_neg (by simp [hD])]
                exact hsd
              · rw [Dec.toRat_add, Dec.toRat_zero, hval]
                ring

theorem netValueSpec_of_totalVenda {l : List Sale} {t : Dec}
    (h : totalVenda l = .ok t) :
    ∃ d, netValueSpec l = .ok d ∧ d.toRat = t.toRat := by
  rcases totalVenda_spec h with ⟨sv, sd, hsv, hsd, hval⟩
  refine ⟨sv.add sd.neg, ?_, ?_⟩
  · unfold netValueSpec
    rw [hsv, hsd]
  · rw [Dec.toRat_add, Dec.toRat_neg, hval]
    ring

theorem netPos_of_totalVenda {ms : List Sale} {c : Nat} {t : Dec}
    (h : totalVenda (ms.filter (fun s => s.cliente == c)) = .ok t) :
    netPos ms c = t.isPos := by
  rcases netValueSpec_of_totalVenda h with ⟨d, hd, hval⟩
  unfold netPos
  rw [hd]
  show d.isPos = t.isPos
  have hiff : (d.isPos = true) ↔ (t.isPos = true) := by
    rw [Dec.isPos_iff, Dec.isPos_iff, hval]
  cases hdp : d.isPos <;> cases htp : t.isPos
  · rfl
  · rw [hdp, htp] at hiff
    exact absurd (hiff.mpr rfl) (by simp)
  · rw [hdp, htp] at hiff
    exact absurd (hiff.mp rfl) (by simp)
  · rfl

theorem attendedCount_spec {ms : List Sale} :
    ∀ {cl : List Nat} {n : Nat}, attendedCount ms cl = .ok n →
      n = (cl.filter (fun c => netPos ms c)).length := by
  intro cl
  induction cl with
  | nil =>
      intro n h
      cases h
      rfl
  | cons c cs ih =>
      intro n h
      cases ht : totalVenda (ms.filter (fun s => s.cliente == c)) with
      | error e => simp only [attendedCount, ht] at h; cases h
      | ok t =>
          simp only [attendedCount, ht] at h
          cases hn : attendedCount ms cs with
          | error e => simp only [hn] at h; cases h
          | ok n0 =>
              simp only [hn] at h
              cases h
              rw [List.filter_cons, netPos_of_totalVenda ht, ih hn]
              by_cases hp : t.isPos = true <;> simp [hp]

theorem mapE_forall₂ {α β : Type} {f : α → Except String β} :
    ∀ {l : List α} {out : List β}, mapE f l = .ok out →
      List.Forall₂ (fun a b => f a = .ok b) l out := by
  intro l
  induction l with
  | nil =>
      intro out h
      cases h
      exact List.Forall₂.nil
  | cons x xs ih =>
      intro out h
      cases hfx : f x with
      | error e => simp only [mapE, hfx] at h; cases h
      | ok y =>
          simp only [mapE, hfx] at h
          cases hxs : mapE f xs with
          | error e => simp only [hxs] at h; cases h
          | ok ys =>
              simp only [hxs] at h
              cases h
              exact List.Forall₂.cons hfx (ih hxs)

theorem evoRow_ok {qs : List Sale} {mk : Nat} {e : Nat × Nat × Nat}
    (h : evoRow qs mk = .ok e) :
    e.1 = mk ∧
    e.2.2 = ((((qs.filter (fun s => s.data_emissao.mesRef == mk)).map
      (fun s => s.cliente)).dedup).filter
        (fun c => netPos (qs.filter (fun s => s.data_emissao.mesRef == mk)) c)).length := by
  cases ha : attendedCount (qs.filter (fun s => s.data_emissao.mesRef == mk))
      (((qs.filter (fun s => s.data_emissao.mesRef == mk)).map
        (fun s => s.cliente)).dedup) with
  | error e' => simp only [evoRow, ha] at h; cases h
  | ok att =>
      simp only [evoRow, ha] at h
      cases h
      exact ⟨rfl, attendedCount_spec ha⟩

theorem chain'_and {γ : Type} {R S : γ → γ → Prop} :
    ∀ {l : List γ}, l.Chain' R → l.Chain' S →
      l.Chain' (fun a b => R a b ∧ S a b) := by
  intro l
  induction l with
  | nil => intro _ _; exact List.chain'_nil
  | cons x xs ih =>
      cases xs with
      | nil => intro _ _; exact List.chain'_singleton x
      | cons y ys =>
          intro h1 h2
          rw [List.chain'_cons] at h1 h2 ⊢
          exact ⟨⟨h1.1, h2.1⟩, ih h1.2 h2.2⟩

theorem evoMonths_chain (qs : List Sale) : (evoMonths qs).Chain' (· < ·) := by
  have hle : (evoMonths qs).Chain' (fun a b => a ≤ b) := by
    have h := chain'_insSort (fun a b : Nat => decide (a ≤ b))
      (fun a b => by
        rcases Nat.le_total a b with h | h
        · exact Or.inl (decide_eq_true h)
        · exact Or.inr (decide_eq_true h))
      ((qs.map (fun s => s.data_emissao.mesRef)).dedup)
    exact h.imp fun a b hab => of_decide_eq_true hab
  have hnd : (evoMonths qs).Nodup :=
    ((insSort_perm _ _).nodup_iff).mpr (List.nodup_dedup _)
  have hne : (evoMonths qs).Chain' (fun a b => a ≠ b) := List.Pairwise.chain' hnd
  exact (chain'_and hle hne).imp fun a b hab => lt_of_le_of_ne hab.1 hab.2

theorem map_fst_of_forall₂ {qs : List Sale} :
    ∀ {l : List Nat} {out : List (Nat × Nat × Nat)},
      List.Forall₂ (fun mk e => evoRow qs mk = .ok e) l out →
      out.map (fun e => e.1) = l := by
  intro l out h
  induction h with
  | nil => rfl
  | cons h1 _ ih =>
      simp only [List.map_cons, ih, (evoRow_ok h1).1]

theorem forall₂_mem_right {α β : Type} {R : α → β → Prop} :
    ∀ {l : List α} {out : List β}, List.Forall₂ R l out →
      ∀ b ∈ out, ∃ a ∈ l, R a b := by
  intro l out h
  induction h with
  | nil => intro b hb; cases hb
  | cons h1 _ ih =>
      intro b hb
      rcases List.mem_cons.mp hb with rfl | hb'
      · exact ⟨_, List.mem_cons_self _ _, h1⟩
      · rcases ih b hb' with ⟨a, ha, hr⟩
        exact ⟨a, List.mem_cons_of_mem _ ha, hr⟩

/-- C3: when the evolution query succeeds, the Python wrapper returns its
rows unchanged; the emitted month keys are strictly ascending; each month's
attended-customer count (`qtd_clientes_com_venda`) equals the number of
distinct customers of that month whose spec-side net value - sum of
regular-sale values minus sum of return values - is strictly positive; and
`netPos` decides exactly "net value > 0", so a customer whose returns meet
or exceed their sales in a month is not counted. -/
theorem claim_C3_evolution (db : DB) (today : Date) (fs cs vs : List String)
    (out : List (Nat × Nat × Nat))
    (h : getEvolucaoE db today fs cs vs = .ok out) :
    get_evolucao_clientes db today fs cs vs = out ∧
    out.Chain' (fun a b => a.1 < b.1) ∧
    (∀ e ∈ out,
      e.2.2 = ((((evoScan db today fs cs vs).filter
          (fun s => s.data_emissao.mesRef == e.1)).map
            (fun s => s.cliente)).dedup.filter
        (fun c => netPos ((evoScan db today fs cs vs).filter
          (fun s => s.data_emissao.mesRef == e.1)) c)).length) ∧
    (∀ (ms : List Sale) (c : Nat), netPos ms c = true ↔
      ∃ d, netValueSpec (ms.filter (fun s => s.cliente == c)) = .ok d ∧
        0 < d.toRat) := by
  have hf : List.Forall₂
      (fun mk e => evoRow (evoScan db today fs cs vs) mk = .ok e)
      (evoMonths (evoScan db today fs cs vs)) out := mapE_forall₂ h
  refine ⟨?_, ?_, ?_, ?_⟩
  · unfold get_evolucao_clientes
    rw [h]
  · have hmap := map_fst_of_forall₂ hf
    have hchain := evoMonths_chain (evoScan db today fs cs vs)
    rw [← hmap] at hchain
    exact (List.chain'_map (fun e : Nat × Nat × Nat => e.1)).mp hchain
  · intro e he
    rcases forall₂_mem_right hf e he with ⟨mk, -, hrow⟩
    rcases evoRow_ok hrow with ⟨h1, h2⟩
    rw [← h1] at h2
    exact h2
  · intro ms c
    unfold netPos
    cases hnv : netValueSpec (ms.filter (fun s => s.cliente == c)) with
    | error e =>
        constructor
        · intro hfalse
          cases hfalse
        · rintro ⟨d, hd, -⟩
          cases hd
    | ok d =>
        constructor
        · intro hp
          exact ⟨d, rfl, (Dec.isPos_iff d).mp hp⟩
        · rintro ⟨d', hd', hpos⟩
          rcases hd' with ⟨⟩
          exact (Dec.isPos_iff d).mpr hpos

/-! ### Concrete counterexamples and witnesses -/

/-- C1 as stated is false on the code: in `dbC1` every transaction is a
return, yet the customer appears in the inactivity report (no `tipo`
condition exists in the query). -/
theorem claim_C1_counterexample :
    (∀ s ∈ dbC1.vendas, s.tipo = "D") ∧
    get_clientes_sem_compra dbC1 hoje 0 ["Todos"] ["Todas"] ["Todos"] ≠ [] := by
  constructor
  · decide
  · decide

/-- Witness for C1 (amended), at a concrete ledger and rewrite. -/
theorem claim_C1_witness :
    get_clientes_sem_compra (dbC1.setTipo (fun _ => "V")) hoje 0
        ["Todos"] ["Todas"] ["Todos"] =
      get_clientes_sem_compra dbC1 hoje 0 ["Todos"] ["Todas"] ["Todos"] :=
  claim_C1_tipo_ignored dbC1 (fun _ => "V") hoje 0 ["Todos"] ["Todas"] ["Todos"]

/-- Witness for C2 at concrete customers: the zero-limit customer of
`dbC2` is reported `Suspenso`; the suspension flag wins even over an
anticipated code and an unparsable limit; the anticipated code wins over
an unparsable limit; a parsed zero limit falls to the zero rule. -/
theorem claim_C2_witness :
    (∃ c ∈ dbC2.clientes, c.cliente = 10 ∧ situacaoOf c = .ok "Suspenso") ∧
    situacaoOf ⟨1, "a", none, "S", "A28", "abc"⟩ = .ok "Suspenso" ∧
    situacaoOf ⟨2, "b", none, "N", "A28", "abc"⟩ = .ok "Antecipado" ∧
    situacaoOf ⟨3, "c", none, "N", "", "0"⟩ =
      .ok (if (Dec.mk 0 0).toRat = 0 then "Suspenso" else "Liberado") :=
  ⟨claim_C2_status_precedence.1 dbC2 hoje 0 ["Todos"] ["Todas"] ["Todos"]
      rowC2 (by decide),
    claim_C2_status_precedence.2.1 ⟨1, "a", none, "S", "A28", "abc"⟩ rfl,
    claim_C2_status_precedence.2.2.1 ⟨2, "b", none, "N", "A28", "abc"⟩
      (by decide) rfl,
    claim_C2_status_precedence.2.2.2 ⟨3, "c", none, "N", "", "0"⟩ ⟨0, 0⟩
      (by decide) (by decide) rfl⟩

/-- Witness for C3 at the concrete ledger `dbC3`: the query succeeds,
months ascend, and only net-positive customers are counted. -/
theorem claim_C3_witness :
    get_evolucao_clientes dbC3 hoje ["Todos"] ["Todas"] ["Todos"] =
      [(202503, 2, 1), (202504, 1, 1)] ∧
    List.Chain' (fun a b => a.1 < b.1)
      [((202503 : Nat), (2 : Nat), (1 : Nat)), (202504, 1, 1)] :=
  ⟨(claim_C3_evolution dbC3 hoje ["Todos"] ["Todas"] ["Todos"]
      [(202503, 2, 1), (202504, 1, 1)] rfl).1,
   (claim_C3_evolution dbC3 hoje ["Todos"] ["Todas"] ["Todos"]
      [(202503, 2, 1), (202504, 1, 1)] rfl).2.1⟩

/-- Witness for C4 at `dbC4`: the reported value equals the closed-month
formula (4 months from 2025-06 to 2025-10), day-of-month is ignored, and a
current-month purchase yields 0. -/
theorem claim_C4_witness :
    (rowC4.meses_sem_compra =
        ((hoje.year : Int) - (rowC4.data_ultima_compra.year : Int)) * 12 +
          ((hoje.month : Int) - (rowC4.data_ultima_compra.month : Int)) ∧
      (0 : Int) ≤ rowC4.meses_sem_compra) ∧
    meses_sem_compra_calc hoje ⟨2025, 3, 1⟩ =
      meses_sem_compra_calc hoje ⟨2025, 3, 28⟩ ∧
    meses_sem_compra_calc hoje ⟨2025, 10, 1⟩ = 0 :=
  ⟨claim_C4_months_inactive.1 dbC4 hoje 0 ["Todos"] ["Todas"] ["Todos"]
      rowC4 (by decide),
   claim_C4_months_inactive.2.1 hoje ⟨2025, 3, 1⟩ ⟨2025, 3, 28⟩ rfl rfl,
   claim_C4_months_inactive.2.2 hoje ⟨2025, 10, 1⟩ rfl rfl⟩

/-- Witness for C5 on the non-empty concrete report `rowsC5`. -/
theorem claim_C5_witness :
    pivotInvariant (pivot_situacao rowsC5) rowsC5.length ∧
    pivotInvariant (pivot_vendedor rowsC5)
      ((rowsC5.filter (fun r => (vendedorCompleto r).isSome)).length) ∧
    pivotInvariant (pivot_cidade rowsC5)
      ((rowsC5.filter (fun r => r.cidade.isSome)).length) :=
  claim_C5_pivot_invariants rowsC5 (by decide)

/-- C7 as stated is false on the code: customer 1's unparsable limit in
`dbC7` erases the whole report - customer 2's row is not produced - while
the repaired ledger `dbC7b` does produce customer 2's row. -/
theorem claim_C7_counterexample :
    get_clientes_sem_compra dbC7 hoje 0 ["Todos"] ["Todas"] ["Todos"] = [] ∧
    (∃ r ∈ get_clientes_sem_compra dbC7b hoje 0 ["Todos"] ["Todas"] ["Todos"],
      r.cliente = 2) := by
  constructor
  · decide
  · decide

/-- Witness for C7 (amended) at the concrete ledgers `dbC7` and `dbC7b`,
plus a suspended customer whose unparsable limit is never cast. -/
theorem claim_C7_witness :
    get_clientes_sem_compra dbC7 hoje 0 ["Todos"] ["Todas"] ["Todos"] = [] ∧
    (∃ rs, rowsFor dbC7b hoje 0 ["Todos"] ["Todas"] ["Todos"] dbC7b.clientes =
        .ok rs ∧
      get_clientes_sem_compra dbC7b hoje 0 ["Todos"] ["Todas"] ["Todos"] =
        insSort (fun a b => decide (b.meses_sem_compra ≤ a.meses_sem_compra)) rs) ∧
    (∃ st, situacaoOf ⟨7, "g", none, "S", "", "abc"⟩ = .ok st) :=
  ⟨claim_C7_unparsable_limit.1 dbC7 hoje 0 ["Todos"] ["Todas"] ["Todos"]
      "invalid input syntax for type numeric: abc" rfl,
   claim_C7_unparsable_limit.2.1 dbC7b hoje 0 ["Todos"] ["Todas"] ["Todos"]
      (by decide),
   claim_C7_unparsable_limit.2.2 ⟨7, "g", none, "S", "", "abc"⟩ (Or.inl rfl)⟩

/-- Witness for C8 at mixed concrete selections: in each case one dimension
is neutral (empty on one side, sentinel-bearing on the other) while the
other two selections stay explicit. -/
theorem claim_C8_witness :
    passSel "Todos" ["Todos", "X"] "Y" = true ∧
    cidPass [] ⟨1, "a", none, "N", "", "5"⟩ = true ∧
    get_clientes_sem_compra dbC8 hoje 0 [] ["Araguari"] ["5"] =
      get_clientes_sem_compra dbC8 hoje 0 ["Todos", "Extra"] ["Araguari"] ["5"] ∧
    get_evolucao_clientes dbC8 hoje ["Forn"] [] ["5"] =
      get_evolucao_clientes dbC8 hoje ["Forn"] ["Todas"] ["5"] ∧
    get_clientes_sem_compra dbC8 hoje 0 ["Forn"] ["Araguari"] [] =
      get_clientes_sem_compra dbC8 hoje 0 ["Forn"] ["Araguari"] ["Todos"] := by
  have hforn := claim_C8_neutral_selections.2.2.1 dbC8 hoje 0 [] ["Todos", "Extra"]
    ["Araguari"] ["5"] (Or.inr rfl) (Or.inl (by decide))
  have hcid := claim_C8_neutral_selections.2.2.2.1 dbC8 hoje 0 ["Forn"] []
    ["Todas"] ["5"] (Or.inr rfl) (Or.inl (by decide))
  have hvend := claim_C8_neutral_selections.2.2.2.2 dbC8 hoje 0 ["Forn"]
    ["Araguari"] [] ["Todos"] (Or.inr rfl) (Or.inl (by decide))
  exact ⟨claim_C8_neutral_selections.1 "Todos" ["Todos", "X"] "Y"
      (Or.inl (by decide)),
    claim_C8_neutral_selections.2.1 [] ⟨1, "a", none, "N", "", "5"⟩ (Or.inr rfl),
    hforn.1, hcid.2, hvend.1⟩

/-- Witness for C9 at `dbC9`: the same customer reported under the neutral
city selection and under the explicit selection `["X"]` carries the same
last-purchase data. -/
theorem claim_C9_witness :
    rowC9.data_ultima_compra = rowC9.data_ultima_compra ∧
    rowC9.ultimo_vendedor_cod = rowC9.ultimo_vendedor_cod ∧
    rowC9.meses_sem_compra = rowC9.meses_sem_compra :=
  claim_C9_city_frame dbC9 hoje 0 ["Todos"] ["Todos"] ["Todas"] ["X"]
    rowC9 rowC9 (by decide) (by decide) rfl

/-- C10 as stated is false on the code: in `dbC10f` customer 50 has a
qualifying scanned sale, yet the report generated by `main` is empty - the
sale is dated in the month after the current one, so the months-inactive
value is -1 and the `>= 0` threshold test drops the customer. -/
theorem claim_C10_counterexample :
    (∃ s ∈ ultimas_vendas_scan dbC10f ["Todos"] ["Todos"], s.cliente = 50) ∧
    (∃ c ∈ dbC10f.clientes, c.cliente = 50 ∧
      cidPass ["Todas"] c = true) ∧
    meses_sem_compra_calc hoje ⟨2025, 11, 5⟩ = -1 ∧
    mainReport dbC10f hoje ["Todos"] ["Todas"] ["Todos"] = [] := by
  refine ⟨by decide, by decide, by decide, by decide⟩

/-- Witness for C10 (amended) at `dbC10`: a customer whose only sale is in
the current month appears in `main`'s report. -/
theorem claim_C10_witness :
    mainThreshold = 0 ∧
    (∃ r ∈ mainReport dbC10 hoje ["Todos"] ["Todas"] ["Todos"],
      r.cliente = 40) :=
  ⟨claim_C10_threshold_zero.1,
   claim_C10_threshold_zero.2.2 dbC10 hoje ["Todos"] ["Todas"] ["Todos"]
     ⟨40, "Cliente Quarenta", some "Araguari", "N", "", "5"⟩
     ⟨40, "5", 7, ⟨2025, 10, 2⟩, "V", "R$ 4,00"⟩
     [rowC10] rfl (by decide) (by decide) rfl rfl (by decide)⟩
